import Mathlib

/-!
# Shortcut themes and closure chains of libdazzle

A shallow embedding of `src/shortcuts/dzl-shortcut-theme.c` and
`src/shortcuts/dzl-shortcut-closure-chain.c`.

* C pointers to interned strings are modelled by the string itself
  (`g_intern_string` returns one canonical pointer per content), a nullable
  pointer by `Option`.
* A `DzlShortcutClosureChain *` is the node it points to followed by the nodes
  held by the `GSList` links after the embedded `node` of that node, `NULL` being
  the empty list. `g_slist_append` allocates the links; the embedded `node` of an
  appended element is never linked, so `chain->node.next->data`, the step of
  execute and free, leads from the head to the first appended element and from
  there nowhere.
* `GHashTable *chains` (direct hash, direct equality on interned keys) is an
  association list; a key may be present with a `NULL` value.
* The recursion of `_dzl_shortcut_theme_match` through parent themes is bounded by
  a fuel argument; `none` means that the fuel ran out.
-/

namespace Dazzle

/-! ## Chords and the chord table -/

/-- One key press: key value and modifier mask. -/
structure DzlShortcutKey where
  keyval : Nat
  modifier : Nat
deriving DecidableEq, Repr

/-- Modelled from the spec: the chord primitive of `dzl-shortcut-chord.c`, which is
not part of the sources. A chord is the ordered sequence of its key presses and
equality is structural (spec §3). -/
abbrev DzlShortcutChord := List DzlShortcutKey

/-- Modelled from the spec: the three-way result of a chord lookup (the enum is
declared in the missing `dzl-shortcut-chord.h`). `NONE` is the zero value: the
theme code returns `FALSE` for it and tests results with `||`. -/
inductive DzlShortcutMatch where
  | NONE
  | EQUAL
  | PARTIAL
deriving DecidableEq, Repr

/-- C truth value of a match result, as used by `match1 || match2 || match3`. -/
def DzlShortcutMatch.truthy : DzlShortcutMatch → Bool
  | DzlShortcutMatch.NONE => false
  | _ => true

/-- Modelled from the spec: "a chord A is a partial match of stored chord B if A is
a strict prefix of B" (spec §3). -/
def dzl_shortcut_chord_strict_prefix_of (a b : DzlShortcutChord) : Bool :=
  a.isPrefixOf b && decide (a.length < b.length)

/-- Modelled from the spec: an entry of the chord table, key chord and the opaque
data pointer. The theme only ever stores interned, non-null names as data. -/
structure DzlShortcutChordTableEntry where
  chord : DzlShortcutChord
  data : String
deriving DecidableEq, Repr

/-- Modelled from the spec: the chord table of `dzl-shortcut-chord.c` (missing from
the sources), "an associative structure mapping Chord → opaque data pointer"
(spec §2, §3, §6). Entries are kept in insertion order. -/
abbrev DzlShortcutChordTable := List DzlShortcutChordTableEntry

/-- Modelled from the spec: `dzl_shortcut_chord_table_new`, the empty table. -/
def dzl_shortcut_chord_table_new : DzlShortcutChordTable := []

/-- Modelled from the spec: `lookup(chord) -> {NONE,PARTIAL,EXACT}, data` (spec §6):
exact lookup first, then "is this chord a strict prefix of some stored chord?". -/
def dzl_shortcut_chord_table_lookup (self : DzlShortcutChordTable)
    (chord : DzlShortcutChord) : DzlShortcutMatch × Option String :=
  match self.find? (fun e => decide (e.chord = chord)) with
  | some e => (DzlShortcutMatch.EQUAL, some e.data)
  | none =>
    if self.any (fun e => dzl_shortcut_chord_strict_prefix_of chord e.chord)
    then (DzlShortcutMatch.PARTIAL, none)
    else (DzlShortcutMatch.NONE, none)

/-- Modelled from the spec: `remove(chord)`, removal by key; a `NULL` chord names no
entry. -/
def dzl_shortcut_chord_table_remove (self : DzlShortcutChordTable)
    (chord : Option DzlShortcutChord) : DzlShortcutChordTable :=
  match chord with
  | none => self
  | some c => self.filter (fun e => !decide (e.chord = c))

/-- Modelled from the spec: `remove_data(data)`, "removal by data pointer must remove
all aliases" (spec §3). -/
def dzl_shortcut_chord_table_remove_data (self : DzlShortcutChordTable)
    (data : String) : DzlShortcutChordTable :=
  self.filter (fun e => !decide (e.data = data))

/-- Modelled from the spec: `add(chord, data)`. The table is a mapping from chords, so
an entry already stored under the same chord is replaced. -/
def dzl_shortcut_chord_table_add (self : DzlShortcutChordTable)
    (chord : DzlShortcutChord) (data : String) : DzlShortcutChordTable :=
  self.filter (fun e => !decide (e.chord = chord)) ++ [⟨chord, data⟩]

/-- Modelled from the spec: `dzl_shortcut_chord_table_lookup_data`, the lookup "by
interned name as the table's associated data, not by chord" (spec §4.2). -/
def dzl_shortcut_chord_table_lookup_data (self : DzlShortcutChordTable)
    (data : Option String) : Option DzlShortcutChord :=
  match data with
  | none => none
  | some d => (self.find? (fun e => decide (e.data = d))).map (fun e => e.chord)

/-! ## Closure chains -/

/-- A `GVariant` value, identified by its text form. -/
structure GVariant where
  text : String
deriving DecidableEq, Repr

/-- A `GValue`: its type and its payload. -/
structure GValue where
  gtype : Nat
  payload : Nat
deriving DecidableEq, Repr

/-- The tagged union of `struct _DzlShortcutClosureChain`; the constructor is the
`type` field. `group` of an action is nullable (see
`dzl_shortcut_closure_chain_append_action_string`). -/
inductive DzlShortcutClosure where
  | action (group : Option String) (name : String) (params : Option GVariant)
  | callback (callback : Nat) (user_data : Nat) (notify : Option Nat)
  | command (name : String)
  | signal (detail : Nat) (name : String) (params : List GValue)
deriving DecidableEq, Repr

/-- One node of a chain: the union and the one-bit `executing` flag. -/
structure DzlShortcutClosureNode where
  closure : DzlShortcutClosure
  executing : Bool
deriving DecidableEq, Repr

/-- A chain pointer: the node it points to, then the nodes held by the links that
`g_slist_append` has put after the embedded `node` of that node, in the order of the
links; `[]` is `NULL`. Only the first node of the list has links after its embedded
`node`: the embedded `node` of an appended element is linked nowhere, its `next`
stays `NULL`. -/
abbrev DzlShortcutClosureChain := List DzlShortcutClosureNode

/-- `dzl_shortcut_closure_chain_new`: a zeroed node of the given kind, as a
one-element chain. -/
def dzl_shortcut_closure_chain_new (c : DzlShortcutClosure) : DzlShortcutClosureChain :=
  [⟨c, false⟩]

/-- `dzl_shortcut_closure_chain_append`: `element` itself when `chain` is `NULL`,
else `g_slist_append (&chain->node, &element->node)`, which allocates a new link
holding `element` and puts it after the last link of the list that starts at the
embedded `node` of `chain`, and the head of `chain`. The function is `static` and
every caller passes a new node as `element`, a node with no link of its own. -/
def dzl_shortcut_closure_chain_append (chain element : DzlShortcutClosureChain) :
    DzlShortcutClosureChain :=
  match chain with
  | [] => element
  | n :: rest => (n :: rest) ++ element

/-- `dzl_shortcut_closure_chain_append_command`. -/
def dzl_shortcut_closure_chain_append_command (chain : DzlShortcutClosureChain)
    (command : Option String) : DzlShortcutClosureChain :=
  match command with
  | none => []
  | some c =>
    dzl_shortcut_closure_chain_append chain
      (dzl_shortcut_closure_chain_new (DzlShortcutClosure.command c))

/-- `dzl_shortcut_closure_chain_append_action`. -/
def dzl_shortcut_closure_chain_append_action (chain : DzlShortcutClosureChain)
    (group_name action_name : Option String) (params : Option GVariant) :
    DzlShortcutClosureChain :=
  match group_name, action_name with
  | some g, some n =>
    dzl_shortcut_closure_chain_append chain
      (dzl_shortcut_closure_chain_new (DzlShortcutClosure.action (some g) n params))
  | _, _ => []

/-- The GLib primitive `g_action_parse_detailed_name`, an external collaborator:
`none` is a parse failure (`FALSE` with an error set), `some (full_name, target)` a
success. -/
abbrev DetailedNameParser := String → Option (String × Option GVariant)

/-- `strchr (full_name, '.')` followed by the split of the source: the text before
the first dot and the text after it, or `none` when there is no dot. -/
def split_at_dot : List Char → Option (List Char × List Char)
  | [] => none
  | c :: cs =>
    if c = '.' then some ([], cs)
    else match split_at_dot cs with
      | some (g, n) => some (c :: g, n)
      | none => none

/-- `dzl_shortcut_closure_chain_append_action_string`. On a parse failure the chain
is returned as it came; without a dot the group is `NULL`. -/
def dzl_shortcut_closure_chain_append_action_string
    (g_action_parse_detailed_name : DetailedNameParser)
    (chain : DzlShortcutClosureChain) (detailed_action_name : Option String) :
    DzlShortcutClosureChain :=
  match detailed_action_name with
  | none => []
  | some dn =>
    match g_action_parse_detailed_name dn with
    | none => chain
    | some (full_name, target_value) =>
      match split_at_dot full_name.toList with
      | some (g, n) =>
        dzl_shortcut_closure_chain_append chain
          (dzl_shortcut_closure_chain_new
            (DzlShortcutClosure.action (some (String.mk g)) (String.mk n) target_value))
      | none =>
        dzl_shortcut_closure_chain_append chain
          (dzl_shortcut_closure_chain_new
            (DzlShortcutClosure.action none full_name target_value))

/-! ## Themes -/

/-- A string pointer used as a key of the `contexts` table, which hashes and compares
pointers: the canonical pointer of `g_intern_string`, or a fresh `g_strdup` copy. -/
inductive GStrPtr where
  | interned (s : String)
  | dup (addr : Nat) (s : String)
deriving DecidableEq, Repr

/-- A `DzlShortcutContext` object: its identity and its name. -/
structure DzlShortcutContext where
  id : Nat
  name : Option String
deriving DecidableEq, Repr

/-- `DzlShortcutThemePrivate`. `manager` is the weak back-pointer, the address of
the owning manager; `chains` is keyed by interned action or command identifiers. -/
structure DzlShortcutTheme where
  name : Option String
  title : Option String
  subtitle : Option String
  parent_name : Option String
  contexts : List (GStrPtr × DzlShortcutContext)
  actions_table : DzlShortcutChordTable
  commands_table : DzlShortcutChordTable
  manager : Option Nat
  chains : List (String × DzlShortcutClosureChain)
deriving DecidableEq, Repr

/-- `g_intern_string`: `NULL` for `NULL`, else the canonical pointer, which the
model identifies with the content. -/
def g_intern_string (s : Option String) : Option String := s

/-- `g_hash_table_contains` on the `chains` table. -/
def g_hash_table_contains (table : List (String × DzlShortcutClosureChain))
    (key : String) : Bool :=
  table.any (fun kv => decide (kv.1 = key))

/-- `g_hash_table_lookup` on the `chains` table: the stored chain, `NULL` when the key
is absent (or is `NULL`, which is never a stored key). -/
def g_hash_table_lookup (table : List (String × DzlShortcutClosureChain))
    (key : Option String) : DzlShortcutClosureChain :=
  match key with
  | none => []
  | some k =>
    match table.find? (fun kv => decide (kv.1 = k)) with
    | some kv => kv.2
    | none => []

/-- `g_hash_table_insert` on the `chains` table: a value stored under the key is
replaced (and freed by the table), else the pair is added. -/
def g_hash_table_insert (table : List (String × DzlShortcutClosureChain))
    (key : String) (value : DzlShortcutClosureChain) :
    List (String × DzlShortcutClosureChain) :=
  if g_hash_table_contains table key
  then table.map (fun kv => if kv.1 = key then (kv.1, value) else kv)
  else table ++ [(key, value)]

/-- `dzl_shortcut_theme_new` with `dzl_shortcut_theme_init`: empty tables, no
parent name, no manager. -/
def dzl_shortcut_theme_new (name : Option String) : DzlShortcutTheme :=
  { name := name, title := none, subtitle := none, parent_name := none,
    contexts := [],
    actions_table := dzl_shortcut_chord_table_new,
    commands_table := dzl_shortcut_chord_table_new,
    manager := none, chains := [] }

/-- `dzl_shortcut_theme_set_parent_name`. -/
def dzl_shortcut_theme_set_parent_name (self : DzlShortcutTheme)
    (parent_name : Option String) : DzlShortcutTheme :=
  if parent_name ≠ self.parent_name then { self with parent_name := parent_name } else self

/-- `dzl_shortcut_theme_set_chord_for_action`. -/
def dzl_shortcut_theme_set_chord_for_action (parse : DetailedNameParser)
    (self : DzlShortcutTheme) (detailed_action_name : Option String)
    (chord : Option DzlShortcutChord) : DzlShortcutTheme :=
  match g_intern_string detailed_action_name with
  | none =>
    { self with actions_table := dzl_shortcut_chord_table_remove self.actions_table chord }
  | some name =>
    let removed := dzl_shortcut_chord_table_remove_data self.actions_table name
    let table :=
      match chord with
      | some c => dzl_shortcut_chord_table_add removed c name
      | none => removed
    let chains :=
      if !g_hash_table_contains self.chains name
      then g_hash_table_insert self.chains name
        (dzl_shortcut_closure_chain_append_action_string parse [] (some name))
      else self.chains
    { self with actions_table := table, chains := chains }

/-- `dzl_shortcut_theme_get_chord_for_action`. The table pointer of a live theme is
never `NULL` (it is cleared in `finalize` only), so the early return is not taken. -/
def dzl_shortcut_theme_get_chord_for_action (self : DzlShortcutTheme)
    (detailed_action_name : Option String) : Option DzlShortcutChord :=
  dzl_shortcut_chord_table_lookup_data self.actions_table
    (g_intern_string detailed_action_name)

/-- The chord primitive `dzl_shortcut_chord_new_from_string` of the missing
`dzl-shortcut-chord.c`, taken as a parameter: `none` is the `NULL` chord of a
malformed accelerator (spec §6). -/
abbrev ChordParser := String → Option DzlShortcutChord

/-- `dzl_shortcut_theme_set_accel_for_action`. -/
def dzl_shortcut_theme_set_accel_for_action (parse : DetailedNameParser)
    (dzl_shortcut_chord_new_from_string : ChordParser)
    (self : DzlShortcutTheme) (detailed_action_name : Option String)
    (accel : Option String) : DzlShortcutTheme :=
  let chord :=
    match accel with
    | some a => dzl_shortcut_chord_new_from_string a
    | none => none
  dzl_shortcut_theme_set_chord_for_action parse self detailed_action_name chord

/-- `dzl_shortcut_theme_set_chord_for_command`. -/
def dzl_shortcut_theme_set_chord_for_command (self : DzlShortcutTheme)
    (command : Option String) (chord : Option DzlShortcutChord) : DzlShortcutTheme :=
  match g_intern_string command with
  | none =>
    { self with commands_table := dzl_shortcut_chord_table_remove self.commands_table chord }
  | some name =>
    let removed := dzl_shortcut_chord_table_remove_data self.commands_table name
    let table :=
      match chord with
      | some c => dzl_shortcut_chord_table_add removed c name
      | none => removed
    let chains :=
      if !g_hash_table_contains self.chains name
      then g_hash_table_insert self.chains name
        (dzl_shortcut_closure_chain_append_command [] (some name))
      else self.chains
    { self with commands_table := table, chains := chains }

/-- `dzl_shortcut_theme_get_chord_for_command`. As for actions, the table pointer
of a live theme is never `NULL`. -/
def dzl_shortcut_theme_get_chord_for_command (self : DzlShortcutTheme)
    (command : Option String) : Option DzlShortcutChord :=
  dzl_shortcut_chord_table_lookup_data self.commands_table (g_intern_string command)

/-- `dzl_shortcut_theme_set_accel_for_command`. -/
def dzl_shortcut_theme_set_accel_for_command
    (dzl_shortcut_chord_new_from_string : ChordParser)
    (self : DzlShortcutTheme) (command : Option String)
    (accel : Option String) : DzlShortcutTheme :=
  let chord :=
    match accel with
    | some a => dzl_shortcut_chord_new_from_string a
    | none => none
  dzl_shortcut_theme_set_chord_for_command self command chord

/-- Modelled from the spec: the manager of the missing `dzl-shortcut-manager.c`, as far
as the theme uses it: the registry of its themes (spec §2), here with the state
each registered theme has at the time of the call. -/
structure DzlShortcutManager where
  themes : List DzlShortcutTheme
deriving DecidableEq, Repr

/-- Modelled from the spec: `dzl_shortcut_manager_get_theme_by_name`, the lookup of a
theme in the registry by its name, which is "unique key in the owning manager's
registry" (spec §3). -/
def dzl_shortcut_manager_get_theme_by_name (self : DzlShortcutManager)
    (theme_name : String) : Option DzlShortcutTheme :=
  self.themes.find? (fun t => decide (t.name = some theme_name))

/-- The manager objects a back-pointer can designate, by address. -/
abbrev ManagerHeap := Nat → DzlShortcutManager

/-- `dzl_shortcut_theme_get_parent`. -/
def dzl_shortcut_theme_get_parent (heap : ManagerHeap) (self : DzlShortcutTheme) :
    Option DzlShortcutTheme :=
  match self.parent_name with
  | none => none
  | some parent_name =>
    match self.manager with
    | none => none
    | some manager => dzl_shortcut_manager_get_theme_by_name (heap manager) parent_name

/-- `_dzl_shortcut_theme_match`, with the value written to `*chain` as second
component. The chord is non-null (first guards of the source). The recursion into
the parent theme uses one unit of fuel; `none` means the fuel ran out. -/
def _dzl_shortcut_theme_match : Nat → ManagerHeap → DzlShortcutTheme → DzlShortcutChord →
    Option (DzlShortcutMatch × DzlShortcutClosureChain)
  | 0, _, _, _ => none
  | fuel + 1, heap, self, chord =>
    let r1 := dzl_shortcut_chord_table_lookup self.actions_table chord
    if r1.1 = DzlShortcutMatch.EQUAL then
      some (r1.1, g_hash_table_lookup self.chains r1.2)
    else
      let r2 := dzl_shortcut_chord_table_lookup self.commands_table chord
      if r2.1 = DzlShortcutMatch.EQUAL then
        some (r2.1, g_hash_table_lookup self.chains r2.2)
      else
        match dzl_shortcut_theme_get_parent heap self with
        | some parent =>
          match _dzl_shortcut_theme_match fuel heap parent chord with
          | none => none
          | some (match3, chain) =>
            if match3 = DzlShortcutMatch.EQUAL then some (match3, chain)
            else some (if r1.1.truthy || r2.1.truthy || match3.truthy
              then DzlShortcutMatch.PARTIAL else DzlShortcutMatch.NONE, [])
        | none =>
          some (if r1.1.truthy || r2.1.truthy || DzlShortcutMatch.NONE.truthy
            then DzlShortcutMatch.PARTIAL else DzlShortcutMatch.NONE, [])

/-- `_dzl_shortcut_theme_set_manager`: the last guard refuses the call unless the
back-pointer is `NULL`. -/
def _dzl_shortcut_theme_set_manager (self : DzlShortcutTheme) (manager : Option Nat) :
    DzlShortcutTheme :=
  if self.manager = none then { self with manager := manager } else self

/-- The themes a match walks through: the theme and the ancestors that
`dzl_shortcut_theme_get_parent` resolves, nearest first; `none` when more than
`fuel` themes are on the walk. -/
def dzl_shortcut_theme_ancestry : Nat → ManagerHeap → DzlShortcutTheme →
    Option (List DzlShortcutTheme)
  | 0, _, _ => none
  | fuel + 1, heap, self =>
    match dzl_shortcut_theme_get_parent heap self with
    | none => some [self]
    | some parent =>
      match dzl_shortcut_theme_ancestry fuel heap parent with
      | none => none
      | some l => some (self :: l)

/-- The own probes of a theme for a chord: whether the actions or the commands table
reports a non-`NONE` result. -/
def own_probe_truthy (t : DzlShortcutTheme) (chord : DzlShortcutChord) : Bool :=
  (dzl_shortcut_chord_table_lookup t.actions_table chord).1.truthy
    || (dzl_shortcut_chord_table_lookup t.commands_table chord).1.truthy

/-- Whether one of the own tables of a theme holds the chord exactly. -/
def own_probe_exact (t : DzlShortcutTheme) (chord : DzlShortcutChord) : Bool :=
  decide ((dzl_shortcut_chord_table_lookup t.actions_table chord).1 = DzlShortcutMatch.EQUAL)
    || decide ((dzl_shortcut_chord_table_lookup t.commands_table chord).1 = DzlShortcutMatch.EQUAL)

/-! ## Concrete inputs -/

/-- The key press Control+k (`GDK_KEY_k`, `GDK_CONTROL_MASK`). -/
def key_ctrl_k : DzlShortcutKey := ⟨107, 4⟩

/-- The key press Control+s. -/
def key_ctrl_s : DzlShortcutKey := ⟨115, 4⟩

/-- The key press Control+q. -/
def key_ctrl_q : DzlShortcutKey := ⟨113, 4⟩

/-- A stand-in for `g_action_parse_detailed_name` on concrete inputs. Like GLib it
rejects the empty name and accepts a name free of blanks, colons and parentheses as
it is, without target; names with a target are not needed and rejected here. -/
def parse_targetless : DetailedNameParser := fun s =>
  if s.toList = [] then none
  else if s.toList.any (fun c => c = ' ' || c = ':' || c = '(' || c = ')') then none
  else some (s, none)

/-- A stand-in for `dzl_shortcut_chord_new_from_string` on concrete inputs: it knows
the accelerators `<Control>k` and `<Control>s` and rejects every other text. -/
def parse_two_accels : ChordParser := fun s =>
  if s = "<Control>k" then some [key_ctrl_k]
  else if s = "<Control>s" then some [key_ctrl_s]
  else none

/-- A theme named `base` in which the command `save-all` is bound to the two-key
chord Control+k Control+s. -/
def theme_base : DzlShortcutTheme :=
  dzl_shortcut_theme_set_chord_for_command (dzl_shortcut_theme_new (some "base"))
    (some "save-all") (some [key_ctrl_k, key_ctrl_s])

/-- A manager heap in which every address designates a manager whose registry holds
`theme_base` only. -/
def heap_with_base : ManagerHeap := fun _ => ⟨[theme_base]⟩

/-- A theme named `custom` without bindings of its own, with parent name `base`,
attached to the manager at address 0. -/
def theme_custom : DzlShortcutTheme :=
  _dzl_shortcut_theme_set_manager
    (dzl_shortcut_theme_set_parent_name (dzl_shortcut_theme_new (some "custom")) (some "base"))
    (some 0)

/-! ## Contexts of a theme -/

/-- `g_hash_table_lookup` on the `contexts` table. The table is created with `NULL`
hash and equality functions, so keys are compared as pointers. -/
def g_hash_table_lookup_context (table : List (GStrPtr × DzlShortcutContext))
    (key : GStrPtr) : Option DzlShortcutContext :=
  (table.find? (fun kv => decide (kv.1 = key))).map (fun kv => kv.2)

/-- `g_hash_table_insert` on the `contexts` table: the value under an equal key
pointer is replaced (the stored key is kept), else the pair is added. -/
def g_hash_table_insert_context (table : List (GStrPtr × DzlShortcutContext))
    (key : GStrPtr) (value : DzlShortcutContext) : List (GStrPtr × DzlShortcutContext) :=
  if table.any (fun kv => decide (kv.1 = key))
  then table.map (fun kv => if kv.1 = key then (kv.1, value) else kv)
  else table ++ [(key, value)]

/-- Modelled from the spec: `dzl_shortcut_context_new (name)` of the missing
`dzl-shortcut-context.c`, as far as the theme uses it: a new context object, whose
identity `id` the allocator chooses, named `name` (spec §3, §4.2). -/
def dzl_shortcut_context_new (id : Nat) (name : String) : DzlShortcutContext :=
  ⟨id, some name⟩

/-- `dzl_shortcut_theme_find_context_by_name`: the returned context and the theme
afterwards. `new_id` is the identity a context created by this call gets. -/
def dzl_shortcut_theme_find_context_by_name (self : DzlShortcutTheme)
    (name : Option String) (new_id : Nat) : Option DzlShortcutContext × DzlShortcutTheme :=
  match g_intern_string name with
  | none => (none, self)
  | some n =>
    match g_hash_table_lookup_context self.contexts (GStrPtr.interned n) with
    | some ret => (some ret, self)
    | none =>
      (some (dzl_shortcut_context_new new_id n),
       { self with
         contexts := (g_hash_table_insert_context self.contexts
           (GStrPtr.interned n) (dzl_shortcut_context_new new_id n)) })

/-- `dzl_shortcut_theme_add_context`. The key is `g_strdup (name)`, a fresh
allocation at address `addr`. -/
def dzl_shortcut_theme_add_context (self : DzlShortcutTheme)
    (context : DzlShortcutContext) (addr : Nat) : DzlShortcutTheme :=
  match context.name with
  | none => self
  | some name =>
    { self with
      contexts := (g_hash_table_insert_context self.contexts
        (GStrPtr.dup addr name) context) }

/-- Every context stored under an interned key carries that name. This holds in a new
theme and is kept by `find_context_by_name` and `add_context`. -/
def contexts_well_named (table : List (GStrPtr × DzlShortcutContext)) : Bool :=
  table.all (fun kv =>
    match kv.1 with
    | GStrPtr.interned s => decide (kv.2.name = some s)
    | GStrPtr.dup _ _ => true)

/-! ## Building chains: callbacks and signals -/

/-- `dzl_shortcut_closure_chain_append_callback`. A function or data pointer is a
number, `NULL` being 0; a `NULL` callback is refused with a `NULL` result. -/
def dzl_shortcut_closure_chain_append_callback (chain : DzlShortcutClosureChain)
    (callback : Nat) (user_data : Nat) (notify : Option Nat) : DzlShortcutClosureChain :=
  if callback = 0 then []
  else
    dzl_shortcut_closure_chain_append chain
      (dzl_shortcut_closure_chain_new (DzlShortcutClosure.callback callback user_data notify))

/-- `strstr (signal_name, "::")` followed by the split of the source: the text before
the first double colon and the text after it, or `none` without double colon. -/
def split_at_double_colon : List Char → Option (List Char × List Char)
  | [] => none
  | c :: cs =>
    match c, cs with
    | ':', ':' :: rest => some ([], rest)
    | _, _ =>
      match split_at_double_colon cs with
      | some (name, detail) => some (c :: name, detail)
      | none => none

/-- One variadic argument of `append_signal`: the `GType` read by `va_arg` and the raw
value that `G_VALUE_COLLECT_INIT` reads after it. -/
structure SignalArg where
  gtype : Nat
  raw : Nat
deriving DecidableEq, Repr

/-- The GObject primitive `G_VALUE_COLLECT_INIT`, an external collaborator: `none`
stands for an error string, `some v` for the collected value. -/
abbrev ValueCollector := SignalArg → Option GValue

/-- The loop of `dzl_shortcut_closure_chain_append_signal` over its `n_args`
arguments: the values appended to `params` until the count is used up or a
collection reports an error. -/
def collect_signal_params (collect : ValueCollector) : Nat → List SignalArg → List GValue
  | 0, _ => []
  | _ + 1, [] => []
  | n + 1, arg :: args =>
    match collect arg with
    | none => []
    | some value => value :: collect_signal_params collect n args

/-- `dzl_shortcut_closure_chain_append_signal`. `g_quark_try_string` is external; the
detail is 0 without `::detail` suffix. -/
def dzl_shortcut_closure_chain_append_signal (g_quark_try_string : String → Nat)
    (collect : ValueCollector) (chain : DzlShortcutClosureChain)
    (signal_name : Option String) (n_args : Nat) (args : List SignalArg) :
    DzlShortcutClosureChain :=
  match signal_name with
  | none => []
  | some full =>
    let split := split_at_double_colon full.toList
    let name :=
      match split with
      | some (truncated, _) => String.mk truncated
      | none => full
    let detail :=
      match split with
      | some (_, detail_str) => g_quark_try_string (String.mk detail_str)
      | none => 0
    dzl_shortcut_closure_chain_append chain
      (dzl_shortcut_closure_chain_new
        (DzlShortcutClosure.signal detail name (collect_signal_params collect n_args args)))

/-- The chain that successive appends of the given closures build from `NULL`: the
common tail of every `append_*` function, `dzl_shortcut_closure_chain_append (chain,
dzl_shortcut_closure_chain_new (...))`, once per closure. -/
def chain_of_appends (closures : List DzlShortcutClosure) : DzlShortcutClosureChain :=
  closures.foldl
    (fun chain c => dzl_shortcut_closure_chain_append chain (dzl_shortcut_closure_chain_new c))
    []

/-! ## Freeing a chain -/

/-- What `dzl_shortcut_closure_chain_free` does to the outside, in order. -/
inductive FreeEffect where
  | warning_leaking
  | variant_unref (params : GVariant)
  | destroy_notify (notify : Nat) (user_data : Nat)
  | array_unref (params : List GValue)
  | slice_free (node : DzlShortcutClosureNode)
deriving DecidableEq, Repr

/-- The release of the payload of one node in `dzl_shortcut_closure_chain_free`.
`g_clear_pointer` calls the destroy function only on a non-null pointer. -/
def free_payload : DzlShortcutClosure → List FreeEffect
  | DzlShortcutClosure.action _ _ (some params) => [FreeEffect.variant_unref params]
  | DzlShortcutClosure.action _ _ none => []
  | DzlShortcutClosure.callback _ user_data (some notify) =>
    if user_data = 0 then [] else [FreeEffect.destroy_notify notify user_data]
  | DzlShortcutClosure.callback _ _ none => []
  | DzlShortcutClosure.command _ => []
  | DzlShortcutClosure.signal _ _ params => [FreeEffect.array_unref params]

/-- `dzl_shortcut_closure_chain_free` called on an appended element, the call
`dzl_shortcut_closure_chain_free (chain->node.next->data)` of the recursion. The
embedded `node` of the element has no `next`, so the call does not recurse further. -/
def free_on_element (element : DzlShortcutClosureNode) : List FreeEffect :=
  if element.executing then [FreeEffect.warning_leaking]
  else free_payload element.closure ++ [FreeEffect.slice_free element]

/-- `dzl_shortcut_closure_chain_free`, as the sequence of its effects. The recursion
goes to `chain->node.next->data`, the first appended element, and stops there: the
elements appended after it are held by links of the list of the head only, which
nothing follows, and the links themselves are never released. -/
def dzl_shortcut_closure_chain_free : DzlShortcutClosureChain → List FreeEffect
  | [] => []
  | node :: next =>
    if node.executing then [FreeEffect.warning_leaking]
    else
      (match next with
        | [] => []
        | element :: _ => free_on_element element)
        ++ free_payload node.closure ++ [FreeEffect.slice_free node]

/-- The flags a chain can have. `executing` is written by
`dzl_shortcut_closure_chain_execute` only, which sets the flag of the node it is
called on before it goes on to the next node and clears it after that, and the
`append_*` functions hand out the head of the chain only: when a node of the chain
has its flag set, the head has. -/
def executing_from_head : DzlShortcutClosureChain → Bool
  | [] => true
  | head :: rest => head.executing || rest.all (fun n => !n.executing)

/-! ## Widgets and dispatch -/

/-- A `GActionGroup` object: its identity and the names `g_action_group_has_action`
accepts. -/
structure GActionGroup where
  id : Nat
  actions : List String
deriving DecidableEq, Repr

/-- The answer of `g_signal_query` for a signal. -/
structure GSignalQuery where
  signal_id : Nat
  param_types : List Nat
  return_type : Nat
deriving DecidableEq, Repr

/-- Modelled from the spec: a `DzlShortcutController` of the missing
`dzl-shortcut-controller.c`, as far as dispatch uses it: its identity, the signals its
type defines (`g_signal_lookup`), and the commands it accepts when
`dzl_shortcut_controller_execute_command` asks it (spec §4.1). -/
structure DzlShortcutController where
  id : Nat
  signals : List (String × GSignalQuery)
  commands : List String
deriving DecidableEq, Repr

/-- What the toolkit answers about one widget: its identity, the action groups
`gtk_widget_get_action_group` finds for it by prefix, the action group the widget
itself is (`G_IS_ACTION_GROUP`), the signals of its type, and the controller
`dzl_shortcut_controller_try_find` returns for it. -/
structure GtkWidgetInfo where
  id : Nat
  action_groups : List (String × GActionGroup)
  as_action_group : Option GActionGroup
  signals : List (String × GSignalQuery)
  controller : Option DzlShortcutController
deriving DecidableEq, Repr

/-- A widget with the widgets above it. `root` and `child` are widgets without or with
a parent (a popover without relative-to widget included); `popover_root` and
`popover_child` are popovers with a relative-to widget. -/
inductive GtkWidget where
  | root (info : GtkWidgetInfo)
  | child (info : GtkWidgetInfo) (parent : GtkWidget)
  | popover_root (info : GtkWidgetInfo) (relative_to : GtkWidget)
  | popover_child (info : GtkWidgetInfo) (relative_to : GtkWidget) (parent : GtkWidget)
deriving DecidableEq, Repr

/-- The answers of the toolkit about the widget itself. -/
def GtkWidget.info : GtkWidget → GtkWidgetInfo
  | GtkWidget.root info => info
  | GtkWidget.child info _ => info
  | GtkWidget.popover_root info _ => info
  | GtkWidget.popover_child info _ _ => info

/-- `gtk_widget_get_parent`. -/
def gtk_widget_get_parent : GtkWidget → Option GtkWidget
  | GtkWidget.root _ => none
  | GtkWidget.child _ parent => some parent
  | GtkWidget.popover_root _ _ => none
  | GtkWidget.popover_child _ _ parent => some parent

/-- `gtk_widget_get_toplevel`: the topmost widget of the parent chain. -/
def gtk_widget_get_toplevel : GtkWidget → GtkWidget
  | GtkWidget.root info => GtkWidget.root info
  | GtkWidget.child _ parent => gtk_widget_get_toplevel parent
  | GtkWidget.popover_root info relative_to => GtkWidget.popover_root info relative_to
  | GtkWidget.popover_child _ _ parent => gtk_widget_get_toplevel parent

/-- `gtk_widget_get_action_group (widget, prefix)`. -/
def gtk_widget_get_action_group (widget : GtkWidget) (pfx : String) : Option GActionGroup :=
  (widget.info.action_groups.find? (fun kv => decide (kv.1 = pfx))).map (fun kv => kv.2)

/-- `g_signal_lookup` and `g_signal_query` on a list of the signals of a type. -/
def g_signal_lookup (signals : List (String × GSignalQuery)) (signal_name : String) :
    Option GSignalQuery :=
  (signals.find? (fun kv => decide (kv.1 = signal_name))).map (fun kv => kv.2)

/-- What dispatching a node does to the outside, in order. -/
inductive DispatchEffect where
  | warning (message : String)
  | action_activated (group : Nat) (action_name : String) (parameter : Option GVariant)
  | callback_invoked (callback : Nat) (widget : Nat) (user_data : Nat)
  | signal_emitted (instance_id : Nat) (signal_id : Nat) (detail : Nat) (params : List GValue)
  | command_asked (controller : Nat) (command : String)
deriving DecidableEq, Repr

/-- The environment of a dispatch: the default application as an action group
(`g_application_get_default`), and `g_type_is_a` behind `G_VALUE_HOLDS`. -/
structure DispatchWorld where
  default_application : Option GActionGroup
  g_type_is_a : Nat → Nat → Bool

/-- The `while` loop of `_dzl_gtk_widget_activate_action`: the first action group found
for the prefix on the walk from the widget, which steps to the relative-to widget of
a popover that has one and to the parent otherwise. -/
def activate_action_find_group (pfx : String) : GtkWidget → Option GActionGroup
  | GtkWidget.root info =>
    gtk_widget_get_action_group (GtkWidget.root info) pfx
  | GtkWidget.child info parent =>
    match gtk_widget_get_action_group (GtkWidget.child info parent) pfx with
    | some group => some group
    | none => activate_action_find_group pfx parent
  | GtkWidget.popover_root info relative_to =>
    match gtk_widget_get_action_group (GtkWidget.popover_root info relative_to) pfx with
    | some group => some group
    | none => activate_action_find_group pfx relative_to
  | GtkWidget.popover_child info relative_to parent =>
    match gtk_widget_get_action_group (GtkWidget.popover_child info relative_to parent) pfx with
    | some group => some group
    | none => activate_action_find_group pfx relative_to

/-- The group `_dzl_gtk_widget_activate_action` resolves: the one of the walk, else the
toplevel for the prefix `win`, else the application for the prefix `app`. -/
def activate_action_resolve_group (world : DispatchWorld) (widget : GtkWidget)
    (pfx : String) : Option GActionGroup :=
  match activate_action_find_group pfx widget with
  | some group => some group
  | none =>
    match (if pfx = "win" then (gtk_widget_get_toplevel widget).info.as_action_group else none) with
    | some group => some group
    | none => if pfx = "app" then world.default_application else none

/-- `_dzl_gtk_widget_activate_action`: `none` when `g_assert (prefix != NULL)` fails and
the process aborts, else the returned value and the effects. -/
def _dzl_gtk_widget_activate_action (world : DispatchWorld) (widget : GtkWidget)
    (pfx : Option String) (action_name : String) (parameter : Option GVariant) :
    Option (Bool × List DispatchEffect) :=
  match pfx with
  | none => none
  | some p =>
    match activate_action_resolve_group world widget p with
    | some group =>
      if group.actions.contains action_name
      then some (true, [DispatchEffect.action_activated group.id action_name parameter])
      else some (false, [DispatchEffect.warning "Failed to locate action"])
    | none => some (false, [DispatchEffect.warning "Failed to locate action"])

/-- The walk of `find_instance_and_signal` up the parents: the first widget whose type
defines the signal. -/
def find_signal_in_hierarchy (signal_name : String) : GtkWidget → Option (Nat × GSignalQuery)
  | GtkWidget.root info =>
    (g_signal_lookup info.signals signal_name).map (fun q => (info.id, q))
  | GtkWidget.child info parent =>
    match g_signal_lookup info.signals signal_name with
    | some q => some (info.id, q)
    | none => find_signal_in_hierarchy signal_name parent
  | GtkWidget.popover_root info _ =>
    (g_signal_lookup info.signals signal_name).map (fun q => (info.id, q))
  | GtkWidget.popover_child info _ parent =>
    match g_signal_lookup info.signals signal_name with
    | some q => some (info.id, q)
    | none => find_signal_in_hierarchy signal_name parent

/-- `find_instance_and_signal`: the instance and the signal query, the controller of the
widget first, then the widget hierarchy; `none` is `FALSE`. -/
def find_instance_and_signal (widget : GtkWidget) (signal_name : String) :
    Option (Nat × GSignalQuery) :=
  match widget.info.controller with
  | some controller =>
    match g_signal_lookup controller.signals signal_name with
    | some q => some (controller.id, q)
    | none => find_signal_in_hierarchy signal_name widget
  | none => find_signal_in_hierarchy signal_name widget

/-- The parameter check of `signal_activate`: same count, and every stored value
holds the declared type. -/
def signal_params_match (world : DispatchWorld) (query : GSignalQuery)
    (params : List GValue) : Bool :=
  decide (query.param_types.length = params.length)
    && (List.zip params query.param_types).all (fun vt => world.g_type_is_a vt.1.gtype vt.2)

/-- `signal_activate`: the returned value and the effects. -/
def signal_activate (world : DispatchWorld) (detail : Nat) (name : String)
    (params : List GValue) (widget : GtkWidget) : Bool × List DispatchEffect :=
  match find_instance_and_signal widget name with
  | none => (true, [DispatchEffect.warning "Failed to locate signal"])
  | some (instance_id, query) =>
    if signal_params_match world query params
    then (true, [DispatchEffect.signal_emitted instance_id query.signal_id detail params])
    else (true, [DispatchEffect.warning "The parameters are not correct for signal"])

/-- Modelled from the spec: `dzl_shortcut_controller_execute_command`, whether the
controller accepts the command. -/
def dzl_shortcut_controller_execute_command (controller : DzlShortcutController)
    (command : String) : Bool :=
  controller.commands.contains command

/-- One step of the loop of `command_activate` at a widget: the controller, if any, is
asked; `true` when it accepts. -/
def command_activate_at (info : GtkWidgetInfo) (command : String) :
    Bool × List DispatchEffect :=
  match info.controller with
  | some controller =>
    (dzl_shortcut_controller_execute_command controller command,
     [DispatchEffect.command_asked controller.id command])
  | none => (false, [])

/-- `command_activate`: the walk up the parents, stopping at the first controller
that accepts. -/
def command_activate (command : String) : GtkWidget → Bool × List DispatchEffect
  | GtkWidget.root info => command_activate_at info command
  | GtkWidget.child info parent =>
    if (command_activate_at info command).1 then (true, (command_activate_at info command).2)
    else ((command_activate command parent).1,
      (command_activate_at info command).2 ++ (command_activate command parent).2)
  | GtkWidget.popover_root info _ => command_activate_at info command
  | GtkWidget.popover_child info _ parent =>
    if (command_activate_at info command).1 then (true, (command_activate_at info command).2)
    else ((command_activate command parent).1,
      (command_activate_at info command).2 ++ (command_activate command parent).2)

/-- The `switch` of `dzl_shortcut_closure_chain_execute` on the type of the node: the
value or-ed into `ret` and the effects, `none` when the process aborts. -/
def dispatch_closure (world : DispatchWorld) (widget : GtkWidget) :
    DzlShortcutClosure → Option (Bool × List DispatchEffect)
  | DzlShortcutClosure.action group name params =>
    _dzl_gtk_widget_activate_action world widget group name params
  | DzlShortcutClosure.callback callback user_data _ =>
    some (true, [DispatchEffect.callback_invoked callback widget.info.id user_data])
  | DzlShortcutClosure.signal detail name params =>
    some (signal_activate world detail name params widget)
  | DzlShortcutClosure.command name =>
    some (command_activate name widget)

/-- The result of a returning `dzl_shortcut_closure_chain_execute`: the value returned,
the nodes dispatched in order, each with its effects, and the chain afterwards. -/
structure ExecuteResult where
  handled : Bool
  dispatched : List (DzlShortcutClosure × List DispatchEffect)
  chain : DzlShortcutClosureChain
deriving DecidableEq, Repr

/-- `dzl_shortcut_closure_chain_execute` called on an appended element, the call
`dzl_shortcut_closure_chain_execute (chain->node.next->data, widget)` of the
recursion. The embedded `node` of the element has no `next`, so the call dispatches
the element and does not recurse further. -/
def execute_on_element (world : DispatchWorld) (widget : GtkWidget)
    (element : DzlShortcutClosureNode) : Option ExecuteResult :=
  if element.executing then some ⟨false, [], [element]⟩
  else
    match dispatch_closure world widget element.closure with
    | none => none
    | some (ret, effects) =>
      some ⟨ret, [(element.closure, effects)], [{ element with executing := false }]⟩

/-- `dzl_shortcut_closure_chain_execute`: `none` when the process aborts at a failed
assertion. The environment is the same for all nodes of the chain, and the
dispatched code is taken not to touch the chain. The recursion goes to
`chain->node.next->data`, the first appended element, and stops there: the elements
appended after it are held by links of the list of the head only, which nothing
follows. -/
def dzl_shortcut_closure_chain_execute (world : DispatchWorld) :
    DzlShortcutClosureChain → GtkWidget → Option ExecuteResult
  | [], _ => some ⟨false, [], []⟩
  | node :: next, widget =>
    if node.executing then some ⟨false, [], node :: next⟩
    else
      match dispatch_closure world widget node.closure with
      | none => none
      | some (ret, effects) =>
        match next with
        | [] => some ⟨ret, [(node.closure, effects)], [{ node with executing := false }]⟩
        | element :: rest =>
          match execute_on_element world widget element with
          | none => none
          | some r =>
            some ⟨ret || r.handled, (node.closure, effects) :: r.dispatched,
              { node with executing := false } :: (r.chain ++ rest)⟩

/-- The value the dispatch of a closure reports (`false` when it does not return). -/
def dispatch_handled (world : DispatchWorld) (widget : GtkWidget)
    (c : DzlShortcutClosure) : Bool :=
  match dispatch_closure world widget c with
  | some (ret, _) => ret
  | none => false

/-- The effects of the dispatch of a closure (none when it does not return). -/
def dispatch_effects (world : DispatchWorld) (widget : GtkWidget)
    (c : DzlShortcutClosure) : List DispatchEffect :=
  match dispatch_closure world widget c with
  | some (_, effects) => effects
  | none => []

/-- The node `dzl_shortcut_closure_chain_new` makes for a closure. -/
def new_node (c : DzlShortcutClosure) : DzlShortcutClosureNode := ⟨c, false⟩

/-! ## More concrete inputs -/

/-- A context object named `editor`. -/
def context_editor : DzlShortcutContext := ⟨1, some "editor"⟩

/-- A second context object named `editor`. -/
def context_editor_two : DzlShortcutContext := ⟨2, some "editor"⟩

/-- A world without default application, in which a value holds exactly its own
type. -/
def world_plain : DispatchWorld := ⟨none, fun a b => decide (a = b)⟩

/-- A lone widget without action groups, signals or controller. -/
def widget_plain : GtkWidget := GtkWidget.root ⟨7, [], none, [], none⟩

/-- A value collector that accepts the types 1 and 2 and reports an error for every
other type. -/
def collect_small_types : ValueCollector := fun arg =>
  if arg.gtype = 1 ∨ arg.gtype = 2 then some ⟨arg.gtype, arg.raw⟩ else none

/-! ## Walks through the widgets, in the words of the spec -/

/-- The widgets the action-group walk meets, nearest first: from a widget it steps to
the relative-to widget of a popover that has one, and to the parent otherwise. -/
def activate_action_walk : GtkWidget → List GtkWidget
  | GtkWidget.root info => [GtkWidget.root info]
  | GtkWidget.child info parent =>
    GtkWidget.child info parent :: activate_action_walk parent
  | GtkWidget.popover_root info relative_to =>
    GtkWidget.popover_root info relative_to :: activate_action_walk relative_to
  | GtkWidget.popover_child info relative_to parent =>
    GtkWidget.popover_child info relative_to parent :: activate_action_walk relative_to

/-- The ancestor chain of a widget by `gtk_widget_get_parent`, the widget itself
first. -/
def widget_ancestors : GtkWidget → List GtkWidgetInfo
  | GtkWidget.root info => [info]
  | GtkWidget.child info parent => info :: widget_ancestors parent
  | GtkWidget.popover_root info _ => [info]
  | GtkWidget.popover_child info _ parent => info :: widget_ancestors parent

/-- The controllers that are asked to execute a command, given the controllers on the
ancestor chain, nearest first: each one in turn up to and including the first that
accepts. -/
def controllers_asked (command : String) :
    List DzlShortcutController → List DzlShortcutController
  | [] => []
  | c :: rest =>
    if dzl_shortcut_controller_execute_command c command then [c]
    else c :: controllers_asked command rest

/-- The action group of the window in the concrete inputs below: it has the action
`close`. -/
def group_win : GActionGroup := ⟨31, ["close"]⟩

/-- The action group of the application in the concrete inputs below: it has the
actions `quit` and `close`. -/
def group_app : GActionGroup := ⟨32, ["quit", "close"]⟩

/-- An action group registered on the editor widget under the prefix `win`; it lacks
the action `close`. -/
def group_editor : GActionGroup := ⟨33, ["find"]⟩

/-- A controller that accepts the command `save-all` and whose type defines the signal
`toggle` with one parameter of type 1. -/
def controller_window : DzlShortcutController :=
  ⟨21, [("toggle", ⟨5, [1], 0⟩)], ["save-all"]⟩

/-- A controller that accepts no command and defines no signal. -/
def controller_editor : DzlShortcutController := ⟨22, [], []⟩

/-- A toplevel window: it is an action group itself, has the signal `activate-focus`
without parameters, and carries `controller_window`. -/
def widget_window : GtkWidget :=
  GtkWidget.root ⟨1, [], some group_win, [("activate-focus", ⟨6, [], 0⟩)],
    some controller_window⟩

/-- An editor widget inside the window, with an action group under `win` and with
`controller_editor`. -/
def widget_editor : GtkWidget :=
  GtkWidget.child ⟨2, [("win", group_editor)], none, [], some controller_editor⟩ widget_window

/-- A plain button inside the window. -/
def widget_button : GtkWidget :=
  GtkWidget.child ⟨3, [], none, [], none⟩ widget_window

/-- A popover whose parent is the window and whose relative-to widget is the
editor. -/
def widget_popover : GtkWidget :=
  GtkWidget.popover_child ⟨4, [], none, [], none⟩ widget_editor widget_window

/-- A world whose default application is `group_app` and in which a value holds
exactly its own type. -/
def world_app : DispatchWorld := ⟨some group_app, fun a b => decide (a = b)⟩

/-! ## Reachable themes and the themes a match probes -/

/-- The theme states reachable from a new theme by calls of the chord and accelerator
setters. -/
inductive ThemeReachable (parse : DetailedNameParser) (chord_new_from_string : ChordParser) :
    DzlShortcutTheme → Prop where
  | fresh (name : Option String) :
      ThemeReachable parse chord_new_from_string (dzl_shortcut_theme_new name)
  | chord_for_action (t : DzlShortcutTheme) (name : Option String)
      (chord : Option DzlShortcutChord) :
      ThemeReachable parse chord_new_from_string t →
      ThemeReachable parse chord_new_from_string
        (dzl_shortcut_theme_set_chord_for_action parse t name chord)
  | chord_for_command (t : DzlShortcutTheme) (name : Option String)
      (chord : Option DzlShortcutChord) :
      ThemeReachable parse chord_new_from_string t →
      ThemeReachable parse chord_new_from_string
        (dzl_shortcut_theme_set_chord_for_command t name chord)
  | accel_for_action (t : DzlShortcutTheme) (name accel : Option String) :
      ThemeReachable parse chord_new_from_string t →
      ThemeReachable parse chord_new_from_string
        (dzl_shortcut_theme_set_accel_for_action parse chord_new_from_string t name accel)
  | accel_for_command (t : DzlShortcutTheme) (name accel : Option String) :
      ThemeReachable parse chord_new_from_string t →
      ThemeReachable parse chord_new_from_string
        (dzl_shortcut_theme_set_accel_for_command chord_new_from_string t name accel)

/-- The data identifier of every entry of the actions table and of the commands table
is a key of `chains`. -/
def tables_point_to_chains (t : DzlShortcutTheme) : Prop :=
  (∀ e ∈ t.actions_table, g_hash_table_contains t.chains e.data = true)
    ∧ (∀ e ∈ t.commands_table, g_hash_table_contains t.chains e.data = true)

/-- The themes whose tables `_dzl_shortcut_theme_match` probes, in the order of the
calls: the control flow of the match, recording the theme at each call. `none`
means the fuel ran out. -/
def _dzl_shortcut_theme_match_probes : Nat → ManagerHeap → DzlShortcutTheme →
    DzlShortcutChord → Option (List DzlShortcutTheme)
  | 0, _, _, _ => none
  | fuel + 1, heap, self, chord =>
    if (dzl_shortcut_chord_table_lookup self.actions_table chord).1 = DzlShortcutMatch.EQUAL
    then some [self]
    else if (dzl_shortcut_chord_table_lookup self.commands_table chord).1
        = DzlShortcutMatch.EQUAL
    then some [self]
    else
      match dzl_shortcut_theme_get_parent heap self with
      | some parent =>
        match _dzl_shortcut_theme_match_probes fuel heap parent chord with
        | none => none
        | some probed => some (self :: probed)
      | none => some [self]

/-- The themes of a walk up to and including the first one that holds the chord
exactly in one of its own tables. -/
def walk_until_exact (chord : DzlShortcutChord) : List DzlShortcutTheme → List DzlShortcutTheme
  | [] => []
  | t :: rest => if own_probe_exact t chord then [t] else t :: walk_until_exact chord rest

/-- A theme in which the chord Control+q is bound both to the action `app.quit` and to
the command `quit-now`. -/
def theme_both : DzlShortcutTheme :=
  dzl_shortcut_theme_set_chord_for_command
    (dzl_shortcut_theme_set_chord_for_action parse_targetless
      (dzl_shortcut_theme_new (some "both")) (some "app.quit") (some [key_ctrl_q]))
    (some "quit-now") (some [key_ctrl_q])

/-- A theme with parent name `base`, attached to the manager at address 0, that binds
the action `app.find` to the two-key chord Control+k Control+q. -/
def theme_override : DzlShortcutTheme :=
  dzl_shortcut_theme_set_chord_for_action parse_targetless theme_custom
    (some "app.find") (some [key_ctrl_k, key_ctrl_q])

/-! ## The flags during an execution -/

/-- The state of the chain at each dispatch of `dzl_shortcut_closure_chain_execute`:
the control flow of the execution, recording at every `switch` the nodes from the one
where the execution started on, with the flags they have at that moment. `visited`
holds the nodes that stand before the node the execution is called on, none for an
execution of a chain from its head. `none` means that the process aborts. As in the
execution, the recursion goes to the first appended element and stops there. -/
def execute_states_at_dispatch (world : DispatchWorld) (widget : GtkWidget) :
    DzlShortcutClosureChain → DzlShortcutClosureChain → Option (List DzlShortcutClosureChain)
  | _, [] => some []
  | visited, node :: next =>
    if node.executing then some []
    else
      match dispatch_closure world widget node.closure with
      | none => none
      | some _ =>
        match next with
        | [] => some [visited ++ [{ node with executing := true }]]
        | element :: rest =>
          if element.executing then
            some [visited ++ { node with executing := true } :: element :: rest]
          else
            match dispatch_closure world widget element.closure with
            | none => none
            | some _ =>
              some [visited ++ { node with executing := true } :: element :: rest,
                visited ++ { node with executing := true }
                  :: { element with executing := true } :: rest]

/-! ## Sorted insertion into the tree -/

/-- A `DzlTreeNode` object: its identity and its text. -/
structure DzlTreeNode where
  id : Nat
  text : String
deriving DecidableEq, Repr

/-- `_dzl_tree_insert_sorted` of `src/tree/dzl-tree.c`, on the children of the node in
store order: the loop over the siblings inserts the child before the first sibling
for which `compare_func (sibling, child, user_data)` is positive, and the child is
appended when the loop ends without such a sibling. `compare_func` stands for the
function together with its `user_data`. -/
def _dzl_tree_insert_sorted (compare_func : DzlTreeNode → DzlTreeNode → Int)
    (child : DzlTreeNode) : List DzlTreeNode → List DzlTreeNode
  | [] => [child]
  | sibling :: rest =>
    if compare_func sibling child > 0 then child :: sibling :: rest
    else sibling :: _dzl_tree_insert_sorted compare_func child rest

/-- A compare function for the concrete inputs: the difference of the lengths of the
texts. -/
def compare_text_length (a b : DzlTreeNode) : Int :=
  (a.text.length : Int) - (b.text.length : Int)

/-! ## Facts about the chord table -/

theorem table_find_after_remove (tbl : DzlShortcutChordTable) (c : DzlShortcutChord) :
    (tbl.filter (fun e => !decide (e.chord = c))).find? (fun e => decide (e.chord = c)) = none := by
  induction tbl with
  | nil => rfl
  | cons e rest ih =>
    by_cases h : e.chord = c
    · simp [List.filter_cons, h, ih]
    · simp [List.filter_cons, h, List.find?_cons, ih]

theorem table_lookup_add (tbl : DzlShortcutChordTable) (c : DzlShortcutChord) (d : String) :
    dzl_shortcut_chord_table_lookup (dzl_shortcut_chord_table_add tbl c d) c
      = (DzlShortcutMatch.EQUAL, some d) := by
  unfold dzl_shortcut_chord_table_lookup dzl_shortcut_chord_table_add
  rw [List.find?_append, table_find_after_remove]
  simp

theorem chains_lookup_some (table : List (String × DzlShortcutClosureChain)) (k : String) :
    g_hash_table_lookup table (some k)
      = match table.find? (fun kv => decide (kv.1 = k)) with
        | some kv => kv.2
        | none => [] := rfl

theorem chains_contains_insert (table : List (String × DzlShortcutClosureChain))
    (k : String) (v : DzlShortcutClosureChain) :
    g_hash_table_contains (g_hash_table_insert table k v) k = true := by
  unfold g_hash_table_insert
  by_cases h : g_hash_table_contains table k = true
  · rw [if_pos h]
    unfold g_hash_table_contains at h ⊢
    rw [List.any_eq_true] at h ⊢
    obtain ⟨kv, hkv, hk⟩ := h
    have hk2 : kv.1 = k := by simpa using hk
    refine ⟨(kv.1, v), ?_, by simpa using hk2⟩
    rw [List.mem_map]
    exact ⟨kv, hkv, by simp [hk2]⟩
  · rw [if_neg h]
    unfold g_hash_table_contains
    simp

/-- After `set_chord_for_action` with a name, the name is a key of `chains`. -/
theorem set_chord_for_action_contains (parse : DetailedNameParser) (t : DzlShortcutTheme)
    (a : String) (c : Option DzlShortcutChord) :
    g_hash_table_contains (dzl_shortcut_theme_set_chord_for_action parse t (some a) c).chains a
      = true := by
  unfold dzl_shortcut_theme_set_chord_for_action g_intern_string
  by_cases h : g_hash_table_contains t.chains a = true
  · simp [h]
  · simp only [Bool.not_eq_true] at h
    simp [h, chains_contains_insert]

/-- After `set_chord_for_command` with a name, the name is a key of `chains`. -/
theorem set_chord_for_command_contains (t : DzlShortcutTheme)
    (a : String) (c : Option DzlShortcutChord) :
    g_hash_table_contains (dzl_shortcut_theme_set_chord_for_command t (some a) c).chains a
      = true := by
  unfold dzl_shortcut_theme_set_chord_for_command g_intern_string
  by_cases h : g_hash_table_contains t.chains a = true
  · simp [h]
  · simp only [Bool.not_eq_true] at h
    simp [h, chains_contains_insert]

theorem set_chord_for_action_table (parse : DetailedNameParser) (t : DzlShortcutTheme)
    (a : String) (c : DzlShortcutChord) :
    (dzl_shortcut_theme_set_chord_for_action parse t (some a) (some c)).actions_table
      = dzl_shortcut_chord_table_add
          (dzl_shortcut_chord_table_remove_data t.actions_table a) c a := rfl

theorem set_chord_for_command_table (t : DzlShortcutTheme)
    (a : String) (c : DzlShortcutChord) :
    (dzl_shortcut_theme_set_chord_for_command t (some a) (some c)).commands_table
      = dzl_shortcut_chord_table_add
          (dzl_shortcut_chord_table_remove_data t.commands_table a) c a := rfl

theorem table_lookup_exact_iff (tbl : DzlShortcutChordTable) (c : DzlShortcutChord) :
    (dzl_shortcut_chord_table_lookup tbl c).1 = DzlShortcutMatch.EQUAL
      ↔ ∃ e ∈ tbl, e.chord = c := by
  unfold dzl_shortcut_chord_table_lookup
  cases hf : tbl.find? (fun e => decide (e.chord = c)) with
  | some e =>
    simp only [true_iff]
    exact ⟨e, List.mem_of_find?_eq_some hf, by simpa using List.find?_some hf⟩
  | none =>
    have hall := List.find?_eq_none.mp hf
    have hne : ¬ ∃ e ∈ tbl, e.chord = c := by
      rintro ⟨e, he, hec⟩
      exact hall e he (by simpa using hec)
    by_cases hany : tbl.any (fun e => dzl_shortcut_chord_strict_prefix_of c e.chord) = true
    · simp [hany, hne]
    · simp [hany, hne]

theorem table_lookup_proper_initial_chord (tbl : DzlShortcutChordTable) (c1 c2 : DzlShortcutChord)
    (hstored : ∃ e ∈ tbl, e.chord = c1)
    (hpre : dzl_shortcut_chord_strict_prefix_of c2 c1 = true)
    (hnot : ¬ ∃ e ∈ tbl, e.chord = c2) :
    dzl_shortcut_chord_table_lookup tbl c2 = (DzlShortcutMatch.PARTIAL, none) := by
  unfold dzl_shortcut_chord_table_lookup
  cases hf : tbl.find? (fun e => decide (e.chord = c2)) with
  | some e =>
    exact absurd ⟨e, List.mem_of_find?_eq_some hf, by simpa using List.find?_some hf⟩ hnot
  | none =>
    obtain ⟨e, he, hec⟩ := hstored
    have hany : tbl.any (fun e => dzl_shortcut_chord_strict_prefix_of c2 e.chord) = true := by
      rw [List.any_eq_true]
      exact ⟨e, he, by rw [hec]; exact hpre⟩
    simp [hany]

theorem ancestry_succ_none (heap : ManagerHeap) (n : Nat) (t : DzlShortcutTheme)
    (hp : dzl_shortcut_theme_get_parent heap t = none) :
    dzl_shortcut_theme_ancestry (n + 1) heap t = some [t] := by
  simp [dzl_shortcut_theme_ancestry, hp]

theorem ancestry_succ_some (heap : ManagerHeap) (n : Nat) (t parent : DzlShortcutTheme)
    (hp : dzl_shortcut_theme_get_parent heap t = some parent) :
    dzl_shortcut_theme_ancestry (n + 1) heap t
      = (dzl_shortcut_theme_ancestry n heap parent).map (fun l => t :: l) := by
  simp only [dzl_shortcut_theme_ancestry, hp]
  cases dzl_shortcut_theme_ancestry n heap parent <;> rfl

theorem own_probe_exact_false (t : DzlShortcutTheme) (chord : DzlShortcutChord)
    (h : own_probe_exact t chord = false) :
    (dzl_shortcut_chord_table_lookup t.actions_table chord).1 ≠ DzlShortcutMatch.EQUAL
      ∧ (dzl_shortcut_chord_table_lookup t.commands_table chord).1 ≠ DzlShortcutMatch.EQUAL := by
  simpa [own_probe_exact] using h

/-- The match of a theme without exact entry and without resolved parent. -/
theorem match_succ_no_parent (heap : ManagerHeap) (n : Nat) (t : DzlShortcutTheme)
    (chord : DzlShortcutChord) (hex : own_probe_exact t chord = false)
    (hp : dzl_shortcut_theme_get_parent heap t = none) :
    _dzl_shortcut_theme_match (n + 1) heap t chord
      = some (if own_probe_truthy t chord then DzlShortcutMatch.PARTIAL
          else DzlShortcutMatch.NONE, []) := by
  have h := own_probe_exact_false t chord hex
  simp [_dzl_shortcut_theme_match, h.1, h.2, hp, own_probe_truthy, DzlShortcutMatch.truthy]

/-- The match of a theme without exact entry whose parent resolves. -/
theorem match_succ_parent (heap : ManagerHeap) (n : Nat) (t parent : DzlShortcutTheme)
    (chord : DzlShortcutChord) (hex : own_probe_exact t chord = false)
    (hp : dzl_shortcut_theme_get_parent heap t = some parent) :
    _dzl_shortcut_theme_match (n + 1) heap t chord
      = match _dzl_shortcut_theme_match n heap parent chord with
        | none => none
        | some (match3, chain) =>
          if match3 = DzlShortcutMatch.EQUAL then some (match3, chain)
          else some (if own_probe_truthy t chord || match3.truthy
            then DzlShortcutMatch.PARTIAL else DzlShortcutMatch.NONE, []) := by
  have h := own_probe_exact_false t chord hex
  simp [_dzl_shortcut_theme_match, h.1, h.2, hp, own_probe_truthy]

/-- When no theme on the walk holds the chord exactly, the match visits the whole walk
and returns `PARTIAL` or `NONE` with a `NULL` chain: `PARTIAL` exactly when some
probe on the walk was not `NONE`. -/
theorem match_without_exact (heap : ManagerHeap) (chord : DzlShortcutChord) :
    ∀ (fuel : Nat) (t : DzlShortcutTheme) (l : List DzlShortcutTheme),
      dzl_shortcut_theme_ancestry fuel heap t = some l →
      (∀ x ∈ l, own_probe_exact x chord = false) →
      _dzl_shortcut_theme_match fuel heap t chord
        = some (if l.any (fun x => own_probe_truthy x chord)
            then DzlShortcutMatch.PARTIAL else DzlShortcutMatch.NONE, []) := by
  intro fuel
  induction fuel with
  | zero => intro t l h; simp [dzl_shortcut_theme_ancestry] at h
  | succ n ih =>
    intro t l hanc hno
    cases hp : dzl_shortcut_theme_get_parent heap t with
    | none =>
      rw [ancestry_succ_none heap n t hp] at hanc
      simp only [Option.some.injEq] at hanc
      subst hanc
      rw [match_succ_no_parent heap n t chord (hno t (List.mem_singleton.mpr rfl)) hp]
      simp
    | some parent =>
      rw [ancestry_succ_some heap n t parent hp] at hanc
      cases hrec : dzl_shortcut_theme_ancestry n heap parent with
      | none => rw [hrec] at hanc; simp at hanc
      | some l2 =>
        rw [hrec] at hanc
        simp only [Option.map_some', Option.some.injEq] at hanc
        subst hanc
        have hrest : ∀ x ∈ l2, own_probe_exact x chord = false :=
          fun x hx => hno x (List.mem_cons_of_mem _ hx)
        rw [match_succ_parent heap n t parent chord (hno t (List.mem_cons_self _ _)) hp,
          ih parent l2 hrec hrest]
        by_cases hany : l2.any (fun x => own_probe_truthy x chord) = true
        · simp [hany, DzlShortcutMatch.truthy]
        · simp only [Bool.not_eq_true] at hany
          simp [hany, DzlShortcutMatch.truthy]

theorem table_find_data_after_remove_data (tbl : DzlShortcutChordTable) (d : String) :
    (dzl_shortcut_chord_table_remove_data tbl d).find? (fun e => decide (e.data = d)) = none := by
  unfold dzl_shortcut_chord_table_remove_data
  rw [List.find?_eq_none]
  intro e he
  have h := (List.mem_filter.mp he).2
  simpa using h

theorem table_lookup_data_remove_data (tbl : DzlShortcutChordTable) (d : String) :
    dzl_shortcut_chord_table_lookup_data (dzl_shortcut_chord_table_remove_data tbl d) (some d)
      = none := by
  simp [dzl_shortcut_chord_table_lookup_data, table_find_data_after_remove_data]

theorem table_lookup_data_add (tbl : DzlShortcutChordTable) (c : DzlShortcutChord)
    (d : String) :
    dzl_shortcut_chord_table_lookup_data
        (dzl_shortcut_chord_table_add (dzl_shortcut_chord_table_remove_data tbl d) c d) (some d)
      = some c := by
  have hnone : ((dzl_shortcut_chord_table_remove_data tbl d).filter
      (fun e => !decide (e.chord = c))).find? (fun e => decide (e.data = d)) = none := by
    rw [List.find?_eq_none]
    intro e he
    have h1 := (List.mem_filter.mp he).1
    unfold dzl_shortcut_chord_table_remove_data at h1
    have h2 := (List.mem_filter.mp h1).2
    simpa using h2
  unfold dzl_shortcut_chord_table_lookup_data dzl_shortcut_chord_table_add
  simp only [List.find?_append, hnone]
  simp

/-! ## Facts about the contexts table -/

theorem contexts_find_none_of_lookup_none (table : List (GStrPtr × DzlShortcutContext))
    (key : GStrPtr) (h : g_hash_table_lookup_context table key = none) :
    table.find? (fun kv => decide (kv.1 = key)) = none := by
  unfold g_hash_table_lookup_context at h
  cases hf : table.find? (fun kv => decide (kv.1 = key)) with
  | none => rfl
  | some kv => rw [hf] at h; simp at h

theorem contexts_insert_absent (table : List (GStrPtr × DzlShortcutContext))
    (key : GStrPtr) (value : DzlShortcutContext)
    (h : g_hash_table_lookup_context table key = none) :
    g_hash_table_insert_context table key value = table ++ [(key, value)] := by
  have hf := contexts_find_none_of_lookup_none table key h
  have hany : table.any (fun kv => decide (kv.1 = key)) = false := by
    rw [List.any_eq_false]
    intro kv hkv
    exact List.find?_eq_none.mp hf kv hkv
  simp [g_hash_table_insert_context, hany]

theorem contexts_lookup_appended (table : List (GStrPtr × DzlShortcutContext))
    (key : GStrPtr) (value : DzlShortcutContext)
    (h : g_hash_table_lookup_context table key = none) :
    g_hash_table_lookup_context (table ++ [(key, value)]) key = some value := by
  have hf := contexts_find_none_of_lookup_none table key h
  unfold g_hash_table_lookup_context
  simp only [List.find?_append, hf]
  simp

theorem contexts_lookup_appended_other (table : List (GStrPtr × DzlShortcutContext))
    (key other : GStrPtr) (value : DzlShortcutContext) (hne : other ≠ key) :
    g_hash_table_lookup_context (table ++ [(key, value)]) other
      = g_hash_table_lookup_context table other := by
  have hne2 : ¬ key = other := fun h => hne h.symm
  unfold g_hash_table_lookup_context
  simp only [List.find?_append]
  cases table.find? (fun kv => decide (kv.1 = other)) with
  | some kv => simp
  | none => simp [hne2]

theorem contexts_named_of_lookup (table : List (GStrPtr × DzlShortcutContext))
    (n : String) (ctx : DzlShortcutContext)
    (hwn : contexts_well_named table = true)
    (h : g_hash_table_lookup_context table (GStrPtr.interned n) = some ctx) :
    ctx.name = some n := by
  unfold g_hash_table_lookup_context at h
  cases hf : table.find? (fun kv => decide (kv.1 = GStrPtr.interned n)) with
  | none => rw [hf] at h; simp at h
  | some kv =>
    rw [hf] at h
    simp only [Option.map_some', Option.some.injEq] at h
    have hmem := List.mem_of_find?_eq_some hf
    have hkey : kv.1 = GStrPtr.interned n := by simpa using List.find?_some hf
    unfold contexts_well_named at hwn
    have hall := List.all_eq_true.mp hwn kv hmem
    rw [hkey] at hall
    rw [← h]
    simpa using hall

/-- A new theme has well-named contexts, and `find_context_by_name` and `add_context`
keep them well named. -/
theorem contexts_well_named_kept (theme : DzlShortcutTheme) (name : Option String)
    (id addr : Nat) (ctx : DzlShortcutContext)
    (hwn : contexts_well_named theme.contexts = true) :
    contexts_well_named (dzl_shortcut_theme_new name).contexts = true
    ∧ contexts_well_named (dzl_shortcut_theme_find_context_by_name theme name id).2.contexts = true
    ∧ contexts_well_named (dzl_shortcut_theme_add_context theme ctx addr).contexts = true := by
  refine ⟨rfl, ?_, ?_⟩
  · unfold dzl_shortcut_theme_find_context_by_name g_intern_string
    cases name with
    | none => exact hwn
    | some n =>
      cases hl : g_hash_table_lookup_context theme.contexts (GStrPtr.interned n) with
      | some ret => simp only [hl]; exact hwn
      | none =>
        simp only [hl, contexts_insert_absent _ _ _ hl]
        unfold contexts_well_named at hwn ⊢
        rw [List.all_append, hwn]
        simp [dzl_shortcut_context_new]
  · unfold dzl_shortcut_theme_add_context
    cases hn : ctx.name with
    | none => exact hwn
    | some nm =>
      simp only
      unfold contexts_well_named g_hash_table_insert_context at *
      by_cases hany : theme.contexts.any (fun kv => decide (kv.1 = GStrPtr.dup addr nm)) = true
      · rw [if_pos hany, List.all_eq_true]
        intro kv hkv
        rw [List.mem_map] at hkv
        obtain ⟨kv0, hkv0, hmap⟩ := hkv
        have h0 := List.all_eq_true.mp hwn kv0 hkv0
        by_cases hk : kv0.1 = GStrPtr.dup addr nm
        · rw [if_pos hk] at hmap
          rw [← hmap, hk]
        · rw [if_neg hk] at hmap
          rw [← hmap]
          exact h0
      · rw [if_neg hany, List.all_append, hwn]
        simp

/-! ## Facts about chains -/

theorem chain_append_singleton (chain : DzlShortcutClosureChain) (c : DzlShortcutClosure) :
    dzl_shortcut_closure_chain_append chain (dzl_shortcut_closure_chain_new c)
      = chain ++ [new_node c] := by
  cases chain <;> rfl

theorem dispatch_closure_of_returns (world : DispatchWorld) (widget : GtkWidget)
    (c : DzlShortcutClosure) (h : dispatch_closure world widget c ≠ none) :
    dispatch_closure world widget c
      = some (dispatch_handled world widget c, dispatch_effects world widget c) := by
  unfold dispatch_handled dispatch_effects
  cases hd : dispatch_closure world widget c with
  | none => exact absurd hd h
  | some r => rfl

/-- The dispatch of a closure fails to return in one case only: an action node whose
group is `NULL`, at `g_assert (prefix != NULL)`. -/
theorem dispatch_closure_aborts_iff (world : DispatchWorld) (widget : GtkWidget)
    (c : DzlShortcutClosure) :
    dispatch_closure world widget c = none
      ↔ ∃ (name : String) (params : Option GVariant),
          c = DzlShortcutClosure.action none name params := by
  cases c with
  | action group name params =>
    cases group with
    | none =>
      simp [dispatch_closure, _dzl_gtk_widget_activate_action]
    | some g =>
      simp only [dispatch_closure, _dzl_gtk_widget_activate_action]
      cases activate_action_resolve_group world widget g with
      | none => simp
      | some grp =>
        by_cases h : name ∈ grp.actions
        · simp [h]
        · simp [h]
  | callback cb ud notify => simp [dispatch_closure]
  | command name => simp [dispatch_closure]
  | signal d name params => simp [dispatch_closure]

/-- The execution of a one-node chain is the execution on that node as an element:
the chain has no link after its embedded `node`. -/
theorem execute_singleton (world : DispatchWorld) (widget : GtkWidget)
    (n : DzlShortcutClosureNode) :
    dzl_shortcut_closure_chain_execute world [n] widget = execute_on_element world widget n := by
  obtain ⟨c, ex⟩ := n
  cases ex with
  | true => simp [dzl_shortcut_closure_chain_execute, execute_on_element]
  | false =>
    cases hd : dispatch_closure world widget c with
    | none => simp [dzl_shortcut_closure_chain_execute, execute_on_element, hd]
    | some d => simp [dzl_shortcut_closure_chain_execute, execute_on_element, hd]

/-- The recursion of `dzl_shortcut_closure_chain_execute` as the source writes it:
on a chain with an idle head and an appended element, the call on
`chain->node.next->data` is the execution of that element with no link of its own. -/
theorem execute_recursion (world : DispatchWorld) (widget : GtkWidget)
    (c : DzlShortcutClosure) (element : DzlShortcutClosureNode)
    (rest : DzlShortcutClosureChain) :
    dzl_shortcut_closure_chain_execute world (⟨c, false⟩ :: element :: rest) widget
      = match dispatch_closure world widget c with
        | none => none
        | some (ret, effects) =>
          match dzl_shortcut_closure_chain_execute world [element] widget with
          | none => none
          | some r =>
            some ⟨ret || r.handled, (c, effects) :: r.dispatched,
              ⟨c, false⟩ :: (r.chain ++ rest)⟩ := by
  rw [execute_singleton]
  simp [dzl_shortcut_closure_chain_execute]

/-- The execution of a chain of new nodes when the dispatches of the first two
return: the value is the or of these two dispatches, only they are dispatched, in
order, and the chain is as before. -/
theorem execute_new_nodes (world : DispatchWorld) (widget : GtkWidget)
    (cs : List DzlShortcutClosure)
    (h : ∀ c ∈ cs.take 2, dispatch_closure world widget c ≠ none) :
    dzl_shortcut_closure_chain_execute world (cs.map new_node) widget
      = some ⟨(cs.take 2).any (dispatch_handled world widget),
          (cs.take 2).map (fun c => (c, dispatch_effects world widget c)),
          cs.map new_node⟩ := by
  cases cs with
  | nil => rfl
  | cons c rest =>
    have hc := dispatch_closure_of_returns world widget c (h c (by simp))
    cases rest with
    | nil =>
      simp [dzl_shortcut_closure_chain_execute, new_node, hc]
    | cons c2 rest2 =>
      have hc2 := dispatch_closure_of_returns world widget c2 (h c2 (by simp))
      simp [dzl_shortcut_closure_chain_execute, execute_on_element, new_node, hc, hc2]

/-! ## Facts about freeing, name splitting and argument collection -/

theorem free_singleton (n : DzlShortcutClosureNode) :
    dzl_shortcut_closure_chain_free [n] = free_on_element n := by
  cases h : n.executing <;> simp [dzl_shortcut_closure_chain_free, free_on_element, h]

/-- The recursion of `dzl_shortcut_closure_chain_free` as the source writes it: the
call on `chain->node.next->data` frees that element with no link of its own. -/
theorem free_recursion (node element : DzlShortcutClosureNode)
    (rest : DzlShortcutClosureChain) :
    dzl_shortcut_closure_chain_free (node :: element :: rest)
      = if node.executing then [FreeEffect.warning_leaking]
        else
          dzl_shortcut_closure_chain_free [element]
            ++ free_payload node.closure ++ [FreeEffect.slice_free node] := by
  rw [free_singleton]
  rfl

/-- Freeing a chain whose head has its flag set only warns. -/
theorem free_head_executing (head : DzlShortcutClosureNode) (rest : DzlShortcutClosureChain)
    (h : head.executing = true) :
    dzl_shortcut_closure_chain_free (head :: rest) = [FreeEffect.warning_leaking] := by
  simp [dzl_shortcut_closure_chain_free, h]

/-- In a chain whose flags are as `executing_from_head` says, a node with its flag
set makes the head one. -/
theorem executing_from_head_head (head : DzlShortcutClosureNode)
    (rest : DzlShortcutClosureChain) (hinv : executing_from_head (head :: rest) = true)
    (hany : ∃ n ∈ head :: rest, n.executing = true) : head.executing = true := by
  cases hh : head.executing with
  | true => rfl
  | false =>
    obtain ⟨n, hn, hex⟩ := hany
    simp only [executing_from_head, hh, Bool.false_or, List.all_eq_true] at hinv
    rcases List.mem_cons.mp hn with hn | hn
    · rw [hn, hh] at hex
      exact hex
    · have := hinv n hn
      simp [hex] at this

theorem split_at_dot_first (gl nl : List Char) (hdot : '.' ∉ gl) :
    split_at_dot (gl ++ '.' :: nl) = some (gl, nl) := by
  induction gl with
  | nil => simp [split_at_dot]
  | cons c rest ih =>
    have hc : c ≠ '.' := fun h => hdot (by simp [h])
    have hrest : '.' ∉ rest := fun h => hdot (List.mem_cons_of_mem _ h)
    simp [split_at_dot, hc, ih hrest]

theorem collect_signal_params_front (collect : ValueCollector) :
    ∀ (pre : List SignalArg) (vs : List GValue) (post : List SignalArg),
      pre.map collect = vs.map some →
      post.head?.bind collect = none →
      collect_signal_params collect (pre ++ post).length (pre ++ post) = vs := by
  intro pre
  induction pre with
  | nil =>
    intro vs post hpre hpost
    have hvs : vs = [] := by
      cases vs with
      | nil => rfl
      | cons v rest => simp at hpre
    subst hvs
    cases post with
    | nil => rfl
    | cons bad rest =>
      have hbad : collect bad = none := by simpa using hpost
      simp [collect_signal_params, hbad]
  | cons a rest ih =>
    intro vs post hpre hpost
    cases vs with
    | nil => simp at hpre
    | cons v vs2 =>
      simp only [List.map_cons, List.cons.injEq] at hpre
      have hrec := ih vs2 post hpre.2 hpost
      simp only [List.cons_append, List.length_cons, collect_signal_params, hpre.1]
      exact congrArg (fun l => v :: l) hrec

/-! ## Facts about dispatch -/

theorem find_group_eq_first_on_walk (pfx : String) (widget : GtkWidget) :
    activate_action_find_group pfx widget
      = (activate_action_walk widget).findSome?
          (fun w => gtk_widget_get_action_group w pfx) := by
  induction widget with
  | root info =>
    simp only [activate_action_find_group, activate_action_walk, List.findSome?_cons,
      List.findSome?_nil]
    cases gtk_widget_get_action_group (GtkWidget.root info) pfx <;> rfl
  | child info parent ih =>
    simp only [activate_action_find_group, activate_action_walk, List.findSome?_cons, ih]
    cases gtk_widget_get_action_group (GtkWidget.child info parent) pfx <;> rfl
  | popover_root info relative_to ih =>
    simp only [activate_action_find_group, activate_action_walk, List.findSome?_cons, ih]
    cases gtk_widget_get_action_group (GtkWidget.popover_root info relative_to) pfx <;> rfl
  | popover_child info relative_to parent ih _ =>
    simp only [activate_action_find_group, activate_action_walk, List.findSome?_cons, ih]
    cases gtk_widget_get_action_group (GtkWidget.popover_child info relative_to parent) pfx
      <;> rfl

theorem command_activate_eq (command : String) (widget : GtkWidget) :
    command_activate command widget
      = (((widget_ancestors widget).filterMap (fun info => info.controller)).any
            (fun c => dzl_shortcut_controller_execute_command c command),
         (controllers_asked command
            ((widget_ancestors widget).filterMap (fun info => info.controller))).map
            (fun c => DispatchEffect.command_asked c.id command)) := by
  induction widget with
  | root info =>
    cases hc : info.controller with
    | none => simp [command_activate, command_activate_at, widget_ancestors, hc,
        controllers_asked]
    | some c =>
      by_cases ha : dzl_shortcut_controller_execute_command c command = true
      · simp [command_activate, command_activate_at, widget_ancestors, hc,
          controllers_asked, ha]
      · simp [command_activate, command_activate_at, widget_ancestors, hc,
          controllers_asked, ha]
  | child info parent ih =>
    cases hc : info.controller with
    | none => simp [command_activate, command_activate_at, widget_ancestors, hc, ih]
    | some c =>
      by_cases ha : dzl_shortcut_controller_execute_command c command = true
      · simp [command_activate, command_activate_at, widget_ancestors, hc,
          controllers_asked, ha]
      · simp [command_activate, command_activate_at, widget_ancestors, hc,
          controllers_asked, ha, ih]
  | popover_root info relative_to _ =>
    cases hc : info.controller with
    | none => simp [command_activate, command_activate_at, widget_ancestors, hc,
        controllers_asked]
    | some c =>
      by_cases ha : dzl_shortcut_controller_execute_command c command = true
      · simp [command_activate, command_activate_at, widget_ancestors, hc,
          controllers_asked, ha]
      · simp [command_activate, command_activate_at, widget_ancestors, hc,
          controllers_asked, ha]
  | popover_child info relative_to parent _ ih =>
    cases hc : info.controller with
    | none => simp [command_activate, command_activate_at, widget_ancestors, hc, ih]
    | some c =>
      by_cases ha : dzl_shortcut_controller_execute_command c command = true
      · simp [command_activate, command_activate_at, widget_ancestors, hc,
          controllers_asked, ha]
      · simp [command_activate, command_activate_at, widget_ancestors, hc,
          controllers_asked, ha, ih]

theorem controllers_asked_initial (command : String) (cs : List DzlShortcutController) :
    controllers_asked command cs <+: cs := by
  induction cs with
  | nil => exact List.prefix_refl _
  | cons c rest ih =>
    by_cases ha : dzl_shortcut_controller_execute_command c command = true
    · simp only [controllers_asked, ha, if_true]
      exact ⟨rest, rfl⟩
    · simp only [controllers_asked, ha, if_false, Bool.false_eq_true]
      obtain ⟨t, ht⟩ := ih
      exact ⟨t, by rw [List.cons_append, ht]⟩

theorem controllers_asked_before_last (command : String) (cs : List DzlShortcutController) :
    ∀ c ∈ (controllers_asked command cs).dropLast,
      dzl_shortcut_controller_execute_command c command = false := by
  induction cs with
  | nil => intro c hc; simp [controllers_asked] at hc
  | cons d rest ih =>
    intro c hc
    by_cases ha : dzl_shortcut_controller_execute_command d command = true
    · simp [controllers_asked, ha] at hc
    · simp only [controllers_asked, ha, if_false, Bool.false_eq_true] at hc
      cases hr : controllers_asked command rest with
      | nil => rw [hr] at hc; simp at hc
      | cons e es =>
        rw [hr, List.dropLast_cons₂, List.mem_cons] at hc
        rcases hc with hc | hc
        · rw [hc]; simpa using ha
        · exact ih c (by rw [hr]; exact hc)

/-! ## More facts about the match -/

theorem match_truthy_of_not_equal (m : DzlShortcutMatch) (h : m ≠ DzlShortcutMatch.EQUAL) :
    m.truthy = decide (m = DzlShortcutMatch.PARTIAL) := by
  cases m with
  | NONE => rfl
  | EQUAL => exact absurd rfl h
  | PARTIAL => rfl

theorem match_succ_actions_exact (heap : ManagerHeap) (n : Nat) (t : DzlShortcutTheme)
    (chord : DzlShortcutChord)
    (h : (dzl_shortcut_chord_table_lookup t.actions_table chord).1 = DzlShortcutMatch.EQUAL) :
    _dzl_shortcut_theme_match (n + 1) heap t chord
      = some (DzlShortcutMatch.EQUAL,
          g_hash_table_lookup t.chains
            (dzl_shortcut_chord_table_lookup t.actions_table chord).2) := by
  simp [_dzl_shortcut_theme_match, h]

theorem match_succ_commands_exact (heap : ManagerHeap) (n : Nat) (t : DzlShortcutTheme)
    (chord : DzlShortcutChord)
    (h1 : (dzl_shortcut_chord_table_lookup t.actions_table chord).1 ≠ DzlShortcutMatch.EQUAL)
    (h2 : (dzl_shortcut_chord_table_lookup t.commands_table chord).1 = DzlShortcutMatch.EQUAL) :
    _dzl_shortcut_theme_match (n + 1) heap t chord
      = some (DzlShortcutMatch.EQUAL,
          g_hash_table_lookup t.chains
            (dzl_shortcut_chord_table_lookup t.commands_table chord).2) := by
  simp [_dzl_shortcut_theme_match, h1, h2]

/-! ## Facts about the chains table under the setters -/

theorem chains_contains_insert_mono (table : List (String × DzlShortcutClosureChain))
    (k : String) (v : DzlShortcutClosureChain) (k2 : String)
    (h : g_hash_table_contains table k2 = true) :
    g_hash_table_contains (g_hash_table_insert table k v) k2 = true := by
  unfold g_hash_table_insert
  by_cases hk : g_hash_table_contains table k = true
  · rw [if_pos hk]
    unfold g_hash_table_contains at h ⊢
    rw [List.any_eq_true] at h ⊢
    obtain ⟨kv, hkv, hkey⟩ := h
    have hkey2 : kv.1 = k2 := by simpa using hkey
    by_cases hkk : kv.1 = k
    · refine ⟨(kv.1, v), List.mem_map.mpr ⟨kv, hkv, by simp [hkk]⟩, by simpa using hkey2⟩
    · refine ⟨kv, List.mem_map.mpr ⟨kv, hkv, by simp [hkk]⟩, by simpa using hkey2⟩
  · rw [if_neg hk]
    unfold g_hash_table_contains at h ⊢
    rw [List.any_append, h]
    rfl

theorem set_chord_for_action_chains_mono (parse : DetailedNameParser) (t : DzlShortcutTheme)
    (name : Option String) (chord : Option DzlShortcutChord) (k : String)
    (h : g_hash_table_contains t.chains k = true) :
    g_hash_table_contains (dzl_shortcut_theme_set_chord_for_action parse t name chord).chains k
      = true := by
  cases name with
  | none => exact h
  | some nm =>
    unfold dzl_shortcut_theme_set_chord_for_action g_intern_string
    by_cases hc : g_hash_table_contains t.chains nm = true
    · simpa [hc] using h
    · simp only [Bool.not_eq_true] at hc
      simp only [hc, Bool.not_false, if_true]
      exact chains_contains_insert_mono _ _ _ _ h

theorem set_chord_for_command_chains_mono (t : DzlShortcutTheme)
    (name : Option String) (chord : Option DzlShortcutChord) (k : String)
    (h : g_hash_table_contains t.chains k = true) :
    g_hash_table_contains (dzl_shortcut_theme_set_chord_for_command t name chord).chains k
      = true := by
  cases name with
  | none => exact h
  | some nm =>
    unfold dzl_shortcut_theme_set_chord_for_command g_intern_string
    by_cases hc : g_hash_table_contains t.chains nm = true
    · simpa [hc] using h
    · simp only [Bool.not_eq_true] at hc
      simp only [hc, Bool.not_false, if_true]
      exact chains_contains_insert_mono _ _ _ _ h

theorem table_mem_after_set (tbl : DzlShortcutChordTable) (nm : String)
    (chord : Option DzlShortcutChord) (e : DzlShortcutChordTableEntry)
    (he : e ∈ (match chord with
      | some c => dzl_shortcut_chord_table_add (dzl_shortcut_chord_table_remove_data tbl nm) c nm
      | none => dzl_shortcut_chord_table_remove_data tbl nm)) :
    e ∈ tbl ∨ e.data = nm := by
  cases chord with
  | none =>
    left
    exact (List.mem_filter.mp he).1
  | some c =>
    simp only [dzl_shortcut_chord_table_add, List.mem_append, List.mem_singleton] at he
    rcases he with he | he
    · left
      have h1 := (List.mem_filter.mp he).1
      exact (List.mem_filter.mp h1).1
    · right
      rw [he]

theorem set_chord_for_action_keeps_invariant (parse : DetailedNameParser)
    (t : DzlShortcutTheme) (name : Option String) (chord : Option DzlShortcutChord)
    (h : tables_point_to_chains t) :
    tables_point_to_chains (dzl_shortcut_theme_set_chord_for_action parse t name chord) := by
  cases name with
  | none =>
    refine ⟨?_, h.2⟩
    intro e he
    have he2 : e ∈ dzl_shortcut_chord_table_remove t.actions_table chord := he
    cases chord with
    | none => exact h.1 e he2
    | some c => exact h.1 e (List.mem_filter.mp he2).1
  | some nm =>
    constructor
    · intro e he
      have he2 := table_mem_after_set t.actions_table nm chord e he
      rcases he2 with he2 | he2
      · exact set_chord_for_action_chains_mono parse t (some nm) chord _ (h.1 e he2)
      · rw [he2]
        exact set_chord_for_action_contains parse t nm chord
    · intro e he
      exact set_chord_for_action_chains_mono parse t (some nm) chord _ (h.2 e he)

theorem set_chord_for_command_keeps_invariant
    (t : DzlShortcutTheme) (name : Option String) (chord : Option DzlShortcutChord)
    (h : tables_point_to_chains t) :
    tables_point_to_chains (dzl_shortcut_theme_set_chord_for_command t name chord) := by
  cases name with
  | none =>
    refine ⟨h.1, ?_⟩
    intro e he
    have he2 : e ∈ dzl_shortcut_chord_table_remove t.commands_table chord := he
    cases chord with
    | none => exact h.2 e he2
    | some c => exact h.2 e (List.mem_filter.mp he2).1
  | some nm =>
    constructor
    · intro e he
      exact set_chord_for_command_chains_mono t (some nm) chord _ (h.1 e he)
    · intro e he
      have he2 := table_mem_after_set t.commands_table nm chord e he
      rcases he2 with he2 | he2
      · exact set_chord_for_command_chains_mono t (some nm) chord _ (h.2 e he2)
      · rw [he2]
        exact set_chord_for_command_contains t nm chord

/-! ## Facts about the walk of a match -/

theorem own_probe_exact_true (t : DzlShortcutTheme) (chord : DzlShortcutChord)
    (h : own_probe_exact t chord = true) :
    (dzl_shortcut_chord_table_lookup t.actions_table chord).1 = DzlShortcutMatch.EQUAL
      ∨ ((dzl_shortcut_chord_table_lookup t.actions_table chord).1 ≠ DzlShortcutMatch.EQUAL
        ∧ (dzl_shortcut_chord_table_lookup t.commands_table chord).1
          = DzlShortcutMatch.EQUAL) := by
  by_cases h1 : (dzl_shortcut_chord_table_lookup t.actions_table chord).1
      = DzlShortcutMatch.EQUAL
  · exact Or.inl h1
  · right
    refine ⟨h1, ?_⟩
    simpa [own_probe_exact, h1] using h

theorem match_returns_of_exact (heap : ManagerHeap) (n : Nat) (t : DzlShortcutTheme)
    (chord : DzlShortcutChord) (h : own_probe_exact t chord = true) :
    ∃ r, _dzl_shortcut_theme_match (n + 1) heap t chord = some r := by
  rcases own_probe_exact_true t chord h with h1 | ⟨h1, h2⟩
  · exact ⟨_, match_succ_actions_exact heap n t chord h1⟩
  · exact ⟨_, match_succ_commands_exact heap n t chord h1 h2⟩

theorem match_probes_of_exact (heap : ManagerHeap) (n : Nat) (t : DzlShortcutTheme)
    (chord : DzlShortcutChord) (h : own_probe_exact t chord = true) :
    _dzl_shortcut_theme_match_probes (n + 1) heap t chord = some [t] := by
  rcases own_probe_exact_true t chord h with h1 | ⟨h1, h2⟩
  · simp [_dzl_shortcut_theme_match_probes, h1]
  · simp [_dzl_shortcut_theme_match_probes, h1, h2]

theorem match_probes_of_not_exact (heap : ManagerHeap) (n : Nat) (t : DzlShortcutTheme)
    (chord : DzlShortcutChord) (h : own_probe_exact t chord = false) :
    _dzl_shortcut_theme_match_probes (n + 1) heap t chord
      = match dzl_shortcut_theme_get_parent heap t with
        | some parent =>
          match _dzl_shortcut_theme_match_probes n heap parent chord with
          | none => none
          | some probed => some (t :: probed)
        | none => some [t] := by
  have hne := own_probe_exact_false t chord h
  simp [_dzl_shortcut_theme_match_probes, hne.1, hne.2]

/-- On a finite walk the match returns, and the themes it probes are those of the walk
up to and including the first that holds the chord exactly. -/
theorem match_on_finite_walk (heap : ManagerHeap) (chord : DzlShortcutChord) :
    ∀ (fuel : Nat) (t : DzlShortcutTheme) (l : List DzlShortcutTheme),
      dzl_shortcut_theme_ancestry fuel heap t = some l →
      (∃ r, _dzl_shortcut_theme_match fuel heap t chord = some r)
        ∧ _dzl_shortcut_theme_match_probes fuel heap t chord
          = some (walk_until_exact chord l) := by
  intro fuel
  induction fuel with
  | zero => intro t l h; simp [dzl_shortcut_theme_ancestry] at h
  | succ n ih =>
    intro t l hanc
    cases hp : dzl_shortcut_theme_get_parent heap t with
    | none =>
      rw [ancestry_succ_none heap n t hp] at hanc
      simp only [Option.some.injEq] at hanc
      subst hanc
      by_cases hex : own_probe_exact t chord = true
      · exact ⟨match_returns_of_exact heap n t chord hex,
          by rw [match_probes_of_exact heap n t chord hex]; simp [walk_until_exact, hex]⟩
      · simp only [Bool.not_eq_true] at hex
        refine ⟨⟨_, match_succ_no_parent heap n t chord hex hp⟩, ?_⟩
        rw [match_probes_of_not_exact heap n t chord hex, hp]
        simp [walk_until_exact, hex]
    | some parent =>
      rw [ancestry_succ_some heap n t parent hp] at hanc
      cases hrec : dzl_shortcut_theme_ancestry n heap parent with
      | none => rw [hrec] at hanc; simp at hanc
      | some l2 =>
        rw [hrec] at hanc
        simp only [Option.map_some', Option.some.injEq] at hanc
        subst hanc
        obtain ⟨⟨r, hr⟩, hprobes⟩ := ih parent l2 hrec
        by_cases hex : own_probe_exact t chord = true
        · exact ⟨match_returns_of_exact heap n t chord hex,
            by rw [match_probes_of_exact heap n t chord hex]; simp [walk_until_exact, hex]⟩
        · simp only [Bool.not_eq_true] at hex
          constructor
          · rw [match_succ_parent heap n t parent chord hex hp, hr]
            obtain ⟨m3, ch⟩ := r
            by_cases h3 : m3 = DzlShortcutMatch.EQUAL
            · exact ⟨(m3, ch), by simp [h3]⟩
            · exact ⟨(if own_probe_truthy t chord || m3.truthy
                then DzlShortcutMatch.PARTIAL else DzlShortcutMatch.NONE, []), by simp [h3]⟩
          · rw [match_probes_of_not_exact heap n t chord hex, hp]
            simp [hprobes, walk_until_exact, hex]

theorem walk_until_exact_initial (chord : DzlShortcutChord) (l : List DzlShortcutTheme) :
    walk_until_exact chord l <+: l := by
  induction l with
  | nil => exact List.prefix_refl _
  | cons t rest ih =>
    by_cases hex : own_probe_exact t chord = true
    · simp only [walk_until_exact, hex, if_true]
      exact ⟨rest, rfl⟩
    · simp only [walk_until_exact, hex, if_false, Bool.false_eq_true]
      obtain ⟨u, hu⟩ := ih
      exact ⟨u, by rw [List.cons_append, hu]⟩

theorem walk_until_exact_before_last (chord : DzlShortcutChord) (l : List DzlShortcutTheme) :
    ∀ x ∈ (walk_until_exact chord l).dropLast, own_probe_exact x chord = false := by
  induction l with
  | nil => intro x hx; simp [walk_until_exact] at hx
  | cons t rest ih =>
    intro x hx
    by_cases hex : own_probe_exact t chord = true
    · simp [walk_until_exact, hex] at hx
    · simp only [walk_until_exact, hex, if_false, Bool.false_eq_true] at hx
      cases hr : walk_until_exact chord rest with
      | nil => rw [hr] at hx; simp at hx
      | cons e es =>
        rw [hr, List.dropLast_cons₂, List.mem_cons] at hx
        rcases hx with hx | hx
        · rw [hx]; simpa using hex
        · exact ih x (by rw [hr]; exact hx)

/-- More fuel than needed does not change the result of a match. -/
theorem match_fuel_succ (heap : ManagerHeap) (chord : DzlShortcutChord) :
    ∀ (n : Nat) (t : DzlShortcutTheme) (r : DzlShortcutMatch × DzlShortcutClosureChain),
      _dzl_shortcut_theme_match n heap t chord = some r →
      _dzl_shortcut_theme_match (n + 1) heap t chord = some r := by
  intro n
  induction n with
  | zero => intro t r h; simp [_dzl_shortcut_theme_match] at h
  | succ k ih =>
    intro t r h
    by_cases hex : own_probe_exact t chord = true
    · rcases own_probe_exact_true t chord hex with h1 | ⟨h1, h2⟩
      · rw [match_succ_actions_exact heap k t chord h1] at h
        rw [match_succ_actions_exact heap (k + 1) t chord h1]
        exact h
      · rw [match_succ_commands_exact heap k t chord h1 h2] at h
        rw [match_succ_commands_exact heap (k + 1) t chord h1 h2]
        exact h
    · simp only [Bool.not_eq_true] at hex
      cases hp : dzl_shortcut_theme_get_parent heap t with
      | none =>
        rw [match_succ_no_parent heap k t chord hex hp] at h
        rw [match_succ_no_parent heap (k + 1) t chord hex hp]
        exact h
      | some parent =>
        rw [match_succ_parent heap k t parent chord hex hp] at h
        rw [match_succ_parent heap (k + 1) t parent chord hex hp]
        cases hrec : _dzl_shortcut_theme_match k heap parent chord with
        | none => rw [hrec] at h; simp at h
        | some r2 =>
          rw [hrec] at h
          rw [ih parent r2 hrec]
          exact h

theorem match_fuel_add (heap : ManagerHeap) (chord : DzlShortcutChord) (n : Nat)
    (t : DzlShortcutTheme) (r : DzlShortcutMatch × DzlShortcutClosureChain)
    (h : _dzl_shortcut_theme_match n heap t chord = some r) :
    ∀ k : Nat, _dzl_shortcut_theme_match (n + k) heap t chord = some r := by
  intro k
  induction k with
  | zero => exact h
  | succ j ih => exact match_fuel_succ heap chord (n + j) t r ih

/-! ## Facts about the flags and about sorted insertion -/

theorem execute_cons_busy (world : DispatchWorld) (widget : GtkWidget)
    (c : DzlShortcutClosure) (next : DzlShortcutClosureChain) :
    dzl_shortcut_closure_chain_execute world (⟨c, true⟩ :: next) widget
      = some ⟨false, [], ⟨c, true⟩ :: next⟩ := by
  simp [dzl_shortcut_closure_chain_execute]

theorem execute_on_element_chain (world : DispatchWorld) (widget : GtkWidget)
    (element : DzlShortcutClosureNode) (r : ExecuteResult)
    (h : execute_on_element world widget element = some r) : r.chain = [element] := by
  obtain ⟨c, ex⟩ := element
  cases ex with
  | true =>
    simp only [execute_on_element, if_true, Option.some.injEq] at h
    rw [← h]
  | false =>
    simp only [execute_on_element, Bool.false_eq_true, if_false] at h
    cases hd : dispatch_closure world widget c with
    | none => rw [hd] at h; simp at h
    | some d =>
      rw [hd] at h
      simp only [Option.some.injEq] at h
      rw [← h]

theorem execute_on_element_returns (world : DispatchWorld) (widget : GtkWidget)
    (element : DzlShortcutClosureNode)
    (h : dispatch_closure world widget element.closure ≠ none) :
    ∃ r, execute_on_element world widget element = some r := by
  cases hd : dispatch_closure world widget element.closure with
  | none => exact absurd hd h
  | some d =>
    cases hex : element.executing with
    | true => exact Option.isSome_iff_exists.mp (by simp [execute_on_element, hex])
    | false => exact Option.isSome_iff_exists.mp (by simp [execute_on_element, hex, hd])

theorem execute_chain_unchanged (world : DispatchWorld) (widget : GtkWidget) :
    ∀ (chain : DzlShortcutClosureChain) (r : ExecuteResult),
      dzl_shortcut_closure_chain_execute world chain widget = some r → r.chain = chain := by
  intro chain r h
  cases chain with
  | nil =>
    simp only [dzl_shortcut_closure_chain_execute, Option.some.injEq] at h
    rw [← h]
  | cons node next =>
    obtain ⟨c, ex⟩ := node
    cases ex with
    | true =>
      rw [execute_cons_busy, Option.some.injEq] at h
      rw [← h]
    | false =>
      simp only [dzl_shortcut_closure_chain_execute, Bool.false_eq_true, if_false] at h
      cases hd : dispatch_closure world widget c with
      | none => rw [hd] at h; simp at h
      | some d =>
        rw [hd] at h
        cases next with
        | nil =>
          simp only [Option.some.injEq] at h
          rw [← h]
        | cons element rest =>
          simp only at h
          cases hn : execute_on_element world widget element with
          | none => rw [hn] at h; simp at h
          | some r2 =>
            rw [hn] at h
            simp only [Option.some.injEq] at h
            rw [← h]
            simp [execute_on_element_chain world widget element r2 hn]

theorem execute_returns_of_dispatches (world : DispatchWorld) (widget : GtkWidget) :
    ∀ chain : DzlShortcutClosureChain,
      (∀ n ∈ chain, dispatch_closure world widget n.closure ≠ none) →
      ∃ r, dzl_shortcut_closure_chain_execute world chain widget = some r := by
  intro chain h
  cases chain with
  | nil => exact ⟨_, rfl⟩
  | cons node next =>
    obtain ⟨c, ex⟩ := node
    cases ex with
    | true => exact ⟨_, execute_cons_busy world widget c next⟩
    | false =>
      have hc : dispatch_closure world widget c ≠ none := h ⟨c, false⟩ (List.mem_cons_self _ _)
      cases hd : dispatch_closure world widget c with
      | none => exact absurd hd hc
      | some d =>
        cases next with
        | nil =>
          exact Option.isSome_iff_exists.mp (by simp [dzl_shortcut_closure_chain_execute, hd])
        | cons element rest =>
          obtain ⟨r2, hr2⟩ := execute_on_element_returns world widget element
            (h element (by simp))
          exact Option.isSome_iff_exists.mp
            (by simp [dzl_shortcut_closure_chain_execute, hd, hr2])

theorem execute_states_count (world : DispatchWorld) (widget : GtkWidget) :
    ∀ (chain visited : DzlShortcutClosureChain),
      (execute_states_at_dispatch world widget visited chain).map List.length
        = (dzl_shortcut_closure_chain_execute world chain widget).map
            (fun r => r.dispatched.length) := by
  intro chain visited
  cases chain with
  | nil => rfl
  | cons node next =>
    obtain ⟨c, ex⟩ := node
    cases ex with
    | true =>
      rw [execute_cons_busy]
      simp [execute_states_at_dispatch]
    | false =>
      cases hd : dispatch_closure world widget c with
      | none => simp [execute_states_at_dispatch, dzl_shortcut_closure_chain_execute, hd]
      | some d =>
        cases next with
        | nil => simp [execute_states_at_dispatch, dzl_shortcut_closure_chain_execute, hd]
        | cons element rest =>
          obtain ⟨c2, ex2⟩ := element
          cases ex2 with
          | true =>
            simp [execute_states_at_dispatch, dzl_shortcut_closure_chain_execute,
              execute_on_element, hd]
          | false =>
            cases hd2 : dispatch_closure world widget c2 with
            | none =>
              simp [execute_states_at_dispatch, dzl_shortcut_closure_chain_execute,
                execute_on_element, hd, hd2]
            | some d2 =>
              simp [execute_states_at_dispatch, dzl_shortcut_closure_chain_execute,
                execute_on_element, hd, hd2]

theorem all_executing_take_one (visited next : DzlShortcutClosureChain)
    (a : DzlShortcutClosureNode) (hv : ∀ v ∈ visited, v.executing = true)
    (ha : a.executing = true) :
    ((visited ++ a :: next).take (visited.length + 0 + 1)).all (fun n => n.executing)
      = true := by
  have htake : (visited ++ a :: next).take (visited.length + 0 + 1) = visited ++ [a] := by
    rw [show visited ++ a :: next = (visited ++ [a]) ++ next by simp]
    rw [List.take_left']
    simp
  rw [htake, List.all_eq_true]
  intro v hvm
  rcases List.mem_append.mp hvm with hvm | hvm
  · exact hv v hvm
  · have : v = a := by simpa using hvm
    rw [this]
    exact ha

theorem all_executing_take_two (visited rest : DzlShortcutClosureChain)
    (a b : DzlShortcutClosureNode) (hv : ∀ v ∈ visited, v.executing = true)
    (ha : a.executing = true) (hb : b.executing = true) :
    ((visited ++ a :: b :: rest).take (visited.length + 1 + 1)).all (fun n => n.executing)
      = true := by
  have htake : (visited ++ a :: b :: rest).take (visited.length + 1 + 1)
      = visited ++ [a, b] := by
    rw [show visited ++ a :: b :: rest = (visited ++ [a, b]) ++ rest by simp]
    rw [List.take_left']
    simp
  rw [htake, List.all_eq_true]
  intro v hvm
  rcases List.mem_append.mp hvm with hvm | hvm
  · exact hv v hvm
  · simp only [List.mem_cons, List.mem_singleton, List.not_mem_nil, or_false] at hvm
    rcases hvm with hvm | hvm
    · rw [hvm]; exact ha
    · rw [hvm]; exact hb

theorem execute_states_flags (world : DispatchWorld) (widget : GtkWidget) :
    ∀ (chain visited : DzlShortcutClosureChain) (states : List DzlShortcutClosureChain),
      (∀ v ∈ visited, v.executing = true) →
      execute_states_at_dispatch world widget visited chain = some states →
      ∀ (i : Nat) (state : DzlShortcutClosureChain), states[i]? = some state →
        (state.take (visited.length + i + 1)).all (fun n => n.executing) = true
          ∧ state.length = visited.length + chain.length := by
  intro chain visited states hv h i state hi
  cases chain with
  | nil =>
    simp only [execute_states_at_dispatch, Option.some.injEq] at h
    rw [← h] at hi
    simp at hi
  | cons node next =>
    obtain ⟨c, ex⟩ := node
    cases ex with
    | true =>
      simp only [execute_states_at_dispatch, if_true, Option.some.injEq] at h
      rw [← h] at hi
      simp at hi
    | false =>
      simp only [execute_states_at_dispatch, Bool.false_eq_true, if_false] at h
      cases hd : dispatch_closure world widget c with
      | none => rw [hd] at h; simp at h
      | some d =>
        rw [hd] at h
        cases next with
        | nil =>
          simp only [Option.some.injEq] at h
          rw [← h] at hi
          cases i with
          | zero =>
            simp only [List.getElem?_cons_zero, Option.some.injEq] at hi
            rw [← hi]
            exact ⟨all_executing_take_one visited [] ⟨c, true⟩ hv rfl, by simp⟩
          | succ j => simp at hi
        | cons element rest =>
          obtain ⟨c2, ex2⟩ := element
          cases ex2 with
          | true =>
            simp only [if_true, Option.some.injEq] at h
            rw [← h] at hi
            cases i with
            | zero =>
              simp only [List.getElem?_cons_zero, Option.some.injEq] at hi
              rw [← hi]
              exact ⟨all_executing_take_one visited _ ⟨c, true⟩ hv rfl, by simp⟩
            | succ j => simp at hi
          | false =>
            simp only [Bool.false_eq_true, if_false] at h
            cases hd2 : dispatch_closure world widget c2 with
            | none => rw [hd2] at h; simp at h
            | some d2 =>
              rw [hd2] at h
              simp only [Option.some.injEq] at h
              rw [← h] at hi
              cases i with
              | zero =>
                simp only [List.getElem?_cons_zero, Option.some.injEq] at hi
                rw [← hi]
                exact ⟨all_executing_take_one visited _ ⟨c, true⟩ hv rfl, by simp⟩
              | succ j =>
                cases j with
                | zero =>
                  simp only [List.getElem?_cons_succ, List.getElem?_cons_zero,
                    Option.some.injEq] at hi
                  rw [← hi]
                  exact ⟨all_executing_take_two visited rest ⟨c, true⟩ ⟨c2, true⟩ hv rfl rfl,
                    by simp⟩
                | succ k => simp at hi

/-- The flags of a chain stay as `executing_from_head` says: they are so in `NULL`
and in a new node, an append of a new node keeps them so, the chain an execution
leaves has them so, and so has the chain at every dispatch of an execution started on
its head. -/
theorem executing_from_head_kept (world : DispatchWorld) (widget : GtkWidget) :
    executing_from_head [] = true
    ∧ (∀ c : DzlShortcutClosure, executing_from_head (dzl_shortcut_closure_chain_new c) = true)
    ∧ (∀ (chain : DzlShortcutClosureChain) (c : DzlShortcutClosure),
        executing_from_head chain = true →
        executing_from_head
          (dzl_shortcut_closure_chain_append chain (dzl_shortcut_closure_chain_new c)) = true)
    ∧ (∀ (chain : DzlShortcutClosureChain) (r : ExecuteResult),
        executing_from_head chain = true →
        dzl_shortcut_closure_chain_execute world chain widget = some r →
        executing_from_head r.chain = true)
    ∧ (∀ (chain : DzlShortcutClosureChain) (states : List DzlShortcutClosureChain),
        execute_states_at_dispatch world widget [] chain = some states →
        ∀ state ∈ states, executing_from_head state = true) := by
  refine ⟨rfl, fun _ => rfl, ?_, ?_, ?_⟩
  · intro chain c h
    cases chain with
    | nil => rfl
    | cons head rest =>
      cases hh : head.executing with
      | true =>
        simp [dzl_shortcut_closure_chain_append, dzl_shortcut_closure_chain_new,
          executing_from_head, hh]
      | false =>
        simp only [executing_from_head, hh, Bool.false_or] at h
        simp [dzl_shortcut_closure_chain_append, dzl_shortcut_closure_chain_new,
          executing_from_head, hh, List.all_append, h]
  · intro chain r h hr
    rw [execute_chain_unchanged world widget chain r hr]
    exact h
  · intro chain states h state hstate
    obtain ⟨i, hi, hget⟩ := List.getElem_of_mem hstate
    have hsome : states[i]? = some state := by
      rw [List.getElem?_eq_getElem hi, hget]
    have hflags := (execute_states_flags world widget chain [] states (by simp) h i state
      hsome).1
    cases state with
    | nil => rfl
    | cons head rest =>
      have hhead : head.executing = true := by
        have := List.all_eq_true.mp hflags head (by simp)
        exact this
      simp [executing_from_head, hhead]

theorem insert_sorted_eq (compare_func : DzlTreeNode → DzlTreeNode → Int)
    (child : DzlTreeNode) (children : List DzlTreeNode) :
    _dzl_tree_insert_sorted compare_func child children
      = children.takeWhile (fun s => decide (compare_func s child ≤ 0))
        ++ child :: children.dropWhile (fun s => decide (compare_func s child ≤ 0)) := by
  induction children with
  | nil => rfl
  | cons s rest ih =>
    by_cases h : compare_func s child > 0
    · have h2 : ¬ compare_func s child ≤ 0 := by omega
      simp [_dzl_tree_insert_sorted, h, List.takeWhile_cons, List.dropWhile_cons, h2]
    · have h2 : compare_func s child ≤ 0 := by omega
      simp [_dzl_tree_insert_sorted, h, List.takeWhile_cons, List.dropWhile_cons, h2, ih]

theorem insert_sorted_keeps_order (compare_func : DzlTreeNode → DzlTreeNode → Int)
    (child : DzlTreeNode)
    (htotal : ∀ a b, compare_func a b ≤ 0 ∨ compare_func b a ≤ 0)
    (htrans : ∀ a b c, compare_func a b ≤ 0 → compare_func b c ≤ 0 → compare_func a c ≤ 0) :
    ∀ children : List DzlTreeNode,
      children.Pairwise (fun a b => compare_func a b ≤ 0) →
      (_dzl_tree_insert_sorted compare_func child children).Pairwise
          (fun a b => compare_func a b ≤ 0)
        ∧ (∀ x ∈ _dzl_tree_insert_sorted compare_func child children,
            x = child ∨ x ∈ children)
        ∧ (∀ s ∈ children.dropWhile (fun s => decide (compare_func s child ≤ 0)),
            compare_func s child > 0) := by
  intro children
  induction children with
  | nil =>
    intro _
    refine ⟨by simp [_dzl_tree_insert_sorted], by simp [_dzl_tree_insert_sorted], by simp⟩
  | cons s rest ih =>
    intro hsorted
    have hs_rest : ∀ x ∈ rest, compare_func s x ≤ 0 := (List.pairwise_cons.mp hsorted).1
    have hrest : rest.Pairwise (fun a b => compare_func a b ≤ 0) :=
      (List.pairwise_cons.mp hsorted).2
    by_cases h : compare_func s child > 0
    · have hcs : compare_func child s ≤ 0 := by
        rcases htotal s child with h1 | h1
        · omega
        · exact h1
      have hnot : ¬ compare_func s child ≤ 0 := by omega
      refine ⟨?_, ?_, ?_⟩
      · simp only [_dzl_tree_insert_sorted, h, if_true]
        rw [List.pairwise_cons]
        refine ⟨?_, hsorted⟩
        intro x hx
        rcases List.mem_cons.mp hx with hx | hx
        · rw [hx]; exact hcs
        · exact htrans child s x hcs (hs_rest x hx)
      · intro x hx
        simp only [_dzl_tree_insert_sorted, h, if_true, List.mem_cons] at hx
        rcases hx with hx | hx | hx
        · exact Or.inl hx
        · exact Or.inr (by rw [hx]; exact List.mem_cons_self _ _)
        · exact Or.inr (List.mem_cons_of_mem _ hx)
      · intro x hx
        simp only [List.dropWhile_cons, hnot, decide_False, Bool.false_eq_true, if_false,
          List.mem_cons] at hx
        rcases hx with hx | hx
        · rw [hx]; exact h
        · by_contra hcon
          have hx_le : compare_func x child ≤ 0 := by omega
          have := htrans s x child (hs_rest x hx) hx_le
          omega
    · have hle : compare_func s child ≤ 0 := by omega
      obtain ⟨ih1, ih2, ih3⟩ := ih hrest
      refine ⟨?_, ?_, ?_⟩
      · simp only [_dzl_tree_insert_sorted, h, if_false]
        rw [List.pairwise_cons]
        refine ⟨?_, ih1⟩
        intro x hx
        rcases ih2 x hx with hx | hx
        · rw [hx]; exact hle
        · exact hs_rest x hx
      · intro x hx
        simp only [_dzl_tree_insert_sorted, h, if_false, List.mem_cons] at hx
        rcases hx with hx | hx
        · exact Or.inr (by rw [hx]; exact List.mem_cons_self _ _)
        · rcases ih2 x hx with hx | hx
          · exact Or.inl hx
          · exact Or.inr (List.mem_cons_of_mem _ hx)
      · intro x hx
        simp only [List.dropWhile_cons, hle, decide_True, if_true] at hx
        exact ih3 x hx

theorem takeWhile_all_le (compare_func : DzlTreeNode → DzlTreeNode → Int)
    (child : DzlTreeNode) (children : List DzlTreeNode) :
    ∀ s ∈ children.takeWhile (fun s => decide (compare_func s child ≤ 0)),
      compare_func s child ≤ 0 := by
  induction children with
  | nil => intro s hs; simp at hs
  | cons c rest ih =>
    intro s hs
    by_cases h : compare_func c child ≤ 0
    · simp only [List.takeWhile_cons, h, decide_True, if_true, List.mem_cons] at hs
      rcases hs with hs | hs
      · rw [hs]; exact h
      · exact ih s hs
    · simp [List.takeWhile_cons, h] at hs

theorem dropWhile_head_greater (compare_func : DzlTreeNode → DzlTreeNode → Int)
    (child : DzlTreeNode) (children : List DzlTreeNode) :
    ∀ s, (children.dropWhile (fun s => decide (compare_func s child ≤ 0))).head? = some s →
      compare_func s child > 0 := by
  induction children with
  | nil => intro s hs; simp at hs
  | cons c rest ih =>
    intro s hs
    by_cases h : compare_func c child ≤ 0
    · simp only [List.dropWhile_cons, h, decide_True, if_true] at hs
      exact ih s hs
    · simp only [List.dropWhile_cons, h, decide_False, Bool.false_eq_true, if_false,
        List.head?_cons, Option.some.injEq] at hs
      rw [← hs]
      omega

/-! ## Claims -/

/-- C1: after `dzl_shortcut_theme_set_chord_for_action (theme, a, C)` with a non-null
name and chord, `_dzl_shortcut_theme_match (theme, C)` returns `EQUAL` and outputs the
chain stored in `chains` under `a` (of which `a` is then a key), whatever the
commands table, the manager registry and the parent contain. -/
theorem C1_match_after_set_chord_for_action (parse : DetailedNameParser)
    (heap : ManagerHeap) (fuel : Nat) (theme : DzlShortcutTheme) (a : String)
    (C : DzlShortcutChord) :
    _dzl_shortcut_theme_match (fuel + 1) heap
        (dzl_shortcut_theme_set_chord_for_action parse theme (some a) (some C)) C
      = some (DzlShortcutMatch.EQUAL,
          g_hash_table_lookup
            (dzl_shortcut_theme_set_chord_for_action parse theme (some a) (some C)).chains
            (some a))
    ∧ g_hash_table_contains
        (dzl_shortcut_theme_set_chord_for_action parse theme (some a) (some C)).chains a
      = true := by
  refine ⟨?_, set_chord_for_action_contains parse theme a (some C)⟩
  unfold _dzl_shortcut_theme_match
  simp only [set_chord_for_action_table, table_lookup_add, if_true]

/-- C3: when a chord C1 is stored in the actions or commands table of the theme or of
an ancestor resolved through the manager, C2 is a strict prefix of C1 and no theme
on the walk stores C2 itself, `_dzl_shortcut_theme_match (theme, C2)` returns
`PARTIAL` with a `NULL` chain. -/
theorem C3_strict_prefix_is_partial (heap : ManagerHeap) (fuel : Nat)
    (theme : DzlShortcutTheme) (l : List DzlShortcutTheme) (C1 C2 : DzlShortcutChord)
    (hwalk : dzl_shortcut_theme_ancestry fuel heap theme = some l)
    (hbound : ∃ x ∈ l, (∃ e ∈ x.actions_table, e.chord = C1)
      ∨ (∃ e ∈ x.commands_table, e.chord = C1))
    (hpre : dzl_shortcut_chord_strict_prefix_of C2 C1 = true)
    (hnot : ∀ x ∈ l, (¬ ∃ e ∈ x.actions_table, e.chord = C2)
      ∧ (¬ ∃ e ∈ x.commands_table, e.chord = C2)) :
    _dzl_shortcut_theme_match fuel heap theme C2 = some (DzlShortcutMatch.PARTIAL, []) := by
  have hno : ∀ x ∈ l, own_probe_exact x C2 = false := by
    intro x hx
    have h := hnot x hx
    simp only [own_probe_exact, Bool.or_eq_false_iff, decide_eq_false_iff_not,
      table_lookup_exact_iff]
    exact h
  rw [match_without_exact heap C2 fuel theme l hwalk hno]
  obtain ⟨x, hx, hb⟩ := hbound
  have hany : l.any (fun x => own_probe_truthy x C2) = true := by
    rw [List.any_eq_true]
    refine ⟨x, hx, ?_⟩
    unfold own_probe_truthy
    rcases hb with hb | hb
    · rw [table_lookup_proper_initial_chord _ C1 C2 hb hpre (hnot x hx).1]
      rfl
    · rw [table_lookup_proper_initial_chord _ C1 C2 hb hpre (hnot x hx).2]
      simp [DzlShortcutMatch.truthy]
  rw [hany]
  rfl

/-- C3 at a concrete input: `theme_custom` inherits the two-key binding of
`theme_base`, and the first key alone matches `PARTIAL`. -/
theorem C3_strict_prefix_is_partial_witness :
    dzl_shortcut_theme_ancestry 2 heap_with_base theme_custom = some [theme_custom, theme_base]
    ∧ _dzl_shortcut_theme_match 2 heap_with_base theme_custom [key_ctrl_k]
      = some (DzlShortcutMatch.PARTIAL, []) :=
  ⟨by decide,
   C3_strict_prefix_is_partial heap_with_base 2 theme_custom [theme_custom, theme_base]
    [key_ctrl_k, key_ctrl_s] [key_ctrl_k] (by decide) (by decide) (by decide) (by decide)⟩

/-- C2: the claim fails on the code when the command name is already a key of `chains`
through an action of the same name. After binding the action `app.quit` to Control+s
and then the command `app.quit` to Control+k, the chord Control+k has no entry in
the actions table, the match is `EQUAL`, and the chain it outputs is the action
chain created first, not a command node. -/
theorem C2_command_reuses_action_chain :
    (dzl_shortcut_chord_table_lookup
        (dzl_shortcut_theme_set_chord_for_command
          (dzl_shortcut_theme_set_chord_for_action parse_targetless
            (dzl_shortcut_theme_new (some "default")) (some "app.quit") (some [key_ctrl_s]))
          (some "app.quit") (some [key_ctrl_k])).actions_table [key_ctrl_k]).1
      = DzlShortcutMatch.NONE
    ∧ _dzl_shortcut_theme_match 1 heap_with_base
        (dzl_shortcut_theme_set_chord_for_command
          (dzl_shortcut_theme_set_chord_for_action parse_targetless
            (dzl_shortcut_theme_new (some "default")) (some "app.quit") (some [key_ctrl_s]))
          (some "app.quit") (some [key_ctrl_k])) [key_ctrl_k]
      = some (DzlShortcutMatch.EQUAL,
          [⟨DzlShortcutClosure.action (some "app") "quit" none, false⟩]) := by
  decide

/-- C4: parent fallback. When the parent name of A resolves to B through the manager A
is attached to and neither own table of A holds the chord exactly, an `EQUAL`
result of the match on B, chain included, is the result of the match on A. -/
theorem C4_parent_fallback (heap : ManagerHeap) (n : Nat) (A B : DzlShortcutTheme)
    (pn : String) (m : Nat) (C : DzlShortcutChord) (k : DzlShortcutClosureChain)
    (hname : A.parent_name = some pn) (hmgr : A.manager = some m)
    (hreg : dzl_shortcut_manager_get_theme_by_name (heap m) pn = some B)
    (hact : (dzl_shortcut_chord_table_lookup A.actions_table C).1 ≠ DzlShortcutMatch.EQUAL)
    (hcmd : (dzl_shortcut_chord_table_lookup A.commands_table C).1 ≠ DzlShortcutMatch.EQUAL)
    (hB : _dzl_shortcut_theme_match n heap B C = some (DzlShortcutMatch.EQUAL, k)) :
    _dzl_shortcut_theme_match (n + 1) heap A C = some (DzlShortcutMatch.EQUAL, k) := by
  have hp : dzl_shortcut_theme_get_parent heap A = some B := by
    simp [dzl_shortcut_theme_get_parent, hname, hmgr, hreg]
  have hex : own_probe_exact A C = false := by
    simp [own_probe_exact, hact, hcmd]
  rw [match_succ_parent heap n A B C hex hp, hB]
  simp

/-- C4 at a concrete input: the chord bound in `theme_base` matches `EQUAL` through
`theme_custom`, with the chain of `theme_base`. -/
theorem C4_parent_fallback_witness :
    _dzl_shortcut_theme_match 1 heap_with_base theme_base [key_ctrl_k, key_ctrl_s]
      = some (DzlShortcutMatch.EQUAL, [⟨DzlShortcutClosure.command "save-all", false⟩])
    ∧ _dzl_shortcut_theme_match 2 heap_with_base theme_custom [key_ctrl_k, key_ctrl_s]
      = some (DzlShortcutMatch.EQUAL, [⟨DzlShortcutClosure.command "save-all", false⟩]) :=
  ⟨by decide,
   C4_parent_fallback heap_with_base 1 theme_custom theme_base "base" 0
    [key_ctrl_k, key_ctrl_s] [⟨DzlShortcutClosure.command "save-all", false⟩]
    (by decide) (by decide) (by decide) (by decide) (by decide) (by decide)⟩

/-- C5: the claim fails on the code. `_dzl_shortcut_theme_set_manager (A, NULL)` on an
attached theme is refused by the guard `priv->manager == NULL`, so the back-pointer
stays set: the parent still resolves and the chord bound only in the parent still
matches `EQUAL` through A. -/
theorem C5_detach_is_refused :
    theme_custom.manager = some 0
    ∧ _dzl_shortcut_theme_set_manager theme_custom none = theme_custom
    ∧ dzl_shortcut_theme_get_parent heap_with_base
        (_dzl_shortcut_theme_set_manager theme_custom none) = some theme_base
    ∧ _dzl_shortcut_theme_match 2 heap_with_base
        (_dzl_shortcut_theme_set_manager theme_custom none) [key_ctrl_k, key_ctrl_s]
      = some (DzlShortcutMatch.EQUAL, [⟨DzlShortcutClosure.command "save-all", false⟩]) := by
  decide

/-- C6: the claim fails on the code. Binding a chord to an action name that the
detailed-name grammar rejects stores the `NULL` result of
`dzl_shortcut_closure_chain_append_action_string` in `chains` and still adds the
chord, so the match is `EQUAL` with a `NULL` chain. -/
theorem C6_exact_match_with_null_chain :
    parse_targetless "app.save(" = none
    ∧ _dzl_shortcut_theme_match 1 heap_with_base
        (dzl_shortcut_theme_set_chord_for_action parse_targetless
          (dzl_shortcut_theme_new (some "default")) (some "app.save(") (some [key_ctrl_s]))
        [key_ctrl_s]
      = some (DzlShortcutMatch.EQUAL, []) := by
  decide

/-- C7, as stated, fails: when the old chord is a strict prefix of the new one, the
old chord still matches `PARTIAL` after the rebinding. -/
theorem C7_old_chord_still_partial :
    ([key_ctrl_k] : DzlShortcutChord) ≠ [key_ctrl_k, key_ctrl_s]
    ∧ _dzl_shortcut_theme_match 1 heap_with_base
        (dzl_shortcut_theme_set_chord_for_action parse_targetless
          (dzl_shortcut_theme_set_chord_for_action parse_targetless
            (dzl_shortcut_theme_new (some "default")) (some "app.save") (some [key_ctrl_k]))
          (some "app.save") (some [key_ctrl_k, key_ctrl_s]))
        [key_ctrl_k]
      = some (DzlShortcutMatch.PARTIAL, []) := by
  decide

/-- C7, amended: in a theme without parent name and without bindings, after
`set_chord_for_action (theme, a, C1)` and then `set_chord_for_action (theme, a, C2)`
with C1 ≠ C2, the match of C1 has a `NULL` chain and is `NONE`, unless C1 is a
strict prefix of C2, in which case it is `PARTIAL`; `get_chord_for_action (theme, a)`
is C2. -/
theorem C7_rebinding_replaces (parse : DetailedNameParser) (heap : ManagerHeap)
    (fuel : Nat) (theme : DzlShortcutTheme) (a : String) (C1 C2 : DzlShortcutChord)
    (hparent : theme.parent_name = none)
    (hactions : theme.actions_table = []) (hcommands : theme.commands_table = [])
    (hne : C1 ≠ C2) :
    _dzl_shortcut_theme_match (fuel + 1) heap
        (dzl_shortcut_theme_set_chord_for_action parse
          (dzl_shortcut_theme_set_chord_for_action parse theme (some a) (some C1))
          (some a) (some C2)) C1
      = some (if dzl_shortcut_chord_strict_prefix_of C1 C2 then DzlShortcutMatch.PARTIAL
          else DzlShortcutMatch.NONE, [])
    ∧ dzl_shortcut_theme_get_chord_for_action
        (dzl_shortcut_theme_set_chord_for_action parse
          (dzl_shortcut_theme_set_chord_for_action parse theme (some a) (some C1))
          (some a) (some C2)) (some a)
      = some C2 := by
  constructor
  · have htbl : (dzl_shortcut_theme_set_chord_for_action parse
          (dzl_shortcut_theme_set_chord_for_action parse theme (some a) (some C1))
          (some a) (some C2)).actions_table = [⟨C2, a⟩] := by
      rw [set_chord_for_action_table, set_chord_for_action_table, hactions]
      simp [dzl_shortcut_chord_table_add, dzl_shortcut_chord_table_remove_data]
    have hcmd : (dzl_shortcut_theme_set_chord_for_action parse
          (dzl_shortcut_theme_set_chord_for_action parse theme (some a) (some C1))
          (some a) (some C2)).commands_table = [] := hcommands
    have hpn : (dzl_shortcut_theme_set_chord_for_action parse
          (dzl_shortcut_theme_set_chord_for_action parse theme (some a) (some C1))
          (some a) (some C2)).parent_name = none := hparent
    have hne2 : ¬ C2 = C1 := fun h => hne h.symm
    have hp : dzl_shortcut_theme_get_parent heap (dzl_shortcut_theme_set_chord_for_action parse
          (dzl_shortcut_theme_set_chord_for_action parse theme (some a) (some C1))
          (some a) (some C2)) = none := by
      simp [dzl_shortcut_theme_get_parent, hpn]
    have hl1 : dzl_shortcut_chord_table_lookup [⟨C2, a⟩] C1
        = (if dzl_shortcut_chord_strict_prefix_of C1 C2 then DzlShortcutMatch.PARTIAL
            else DzlShortcutMatch.NONE, none) := by
      unfold dzl_shortcut_chord_table_lookup
      by_cases hpre : dzl_shortcut_chord_strict_prefix_of C1 C2 = true
      · simp [hne2, hpre]
      · simp [hne2, hpre]
    have hl2 : dzl_shortcut_chord_table_lookup [] C1 = (DzlShortcutMatch.NONE, none) := rfl
    have hex : own_probe_exact (dzl_shortcut_theme_set_chord_for_action parse
          (dzl_shortcut_theme_set_chord_for_action parse theme (some a) (some C1))
          (some a) (some C2)) C1 = false := by
      unfold own_probe_exact
      rw [htbl, hcmd, hl1, hl2]
      by_cases hpre : dzl_shortcut_chord_strict_prefix_of C1 C2 = true
      · simp [hpre]
      · simp [hpre]
    rw [match_succ_no_parent heap fuel _ C1 hex hp]
    unfold own_probe_truthy
    rw [htbl, hcmd, hl1, hl2]
    by_cases hpre : dzl_shortcut_chord_strict_prefix_of C1 C2 = true
    · simp [hpre, DzlShortcutMatch.truthy]
    · simp [hpre, DzlShortcutMatch.truthy]
  · unfold dzl_shortcut_theme_get_chord_for_action g_intern_string
    rw [set_chord_for_action_table]
    exact table_lookup_data_add _ C2 a

/-- C7, amended, at a concrete input: rebinding `app.save` from Control+k to
Control+s. -/
theorem C7_rebinding_replaces_witness :
    _dzl_shortcut_theme_match 1 heap_with_base
        (dzl_shortcut_theme_set_chord_for_action parse_targetless
          (dzl_shortcut_theme_set_chord_for_action parse_targetless
            (dzl_shortcut_theme_new (some "default")) (some "app.save") (some [key_ctrl_k]))
          (some "app.save") (some [key_ctrl_s])) [key_ctrl_k]
      = some (if dzl_shortcut_chord_strict_prefix_of [key_ctrl_k] [key_ctrl_s]
          then DzlShortcutMatch.PARTIAL else DzlShortcutMatch.NONE, [])
    ∧ dzl_shortcut_theme_get_chord_for_action
        (dzl_shortcut_theme_set_chord_for_action parse_targetless
          (dzl_shortcut_theme_set_chord_for_action parse_targetless
            (dzl_shortcut_theme_new (some "default")) (some "app.save") (some [key_ctrl_k]))
          (some "app.save") (some [key_ctrl_s])) (some "app.save")
      = some [key_ctrl_s] :=
  C7_rebinding_replaces parse_targetless heap_with_base 0
    (dzl_shortcut_theme_new (some "default")) "app.save" [key_ctrl_k] [key_ctrl_s]
    rfl rfl rfl (by decide)

/-- C8: chain reuse. When the name is already a key of `chains`, a further
`set_chord_for_action` or `set_chord_for_command` with that name and any chord
(or `NULL`) leaves the `chains` table as it is: nothing is inserted, replaced or
freed, and the chain stored under the name is the one stored before. -/
theorem C8_chain_reuse (parse : DetailedNameParser) (theme : DzlShortcutTheme)
    (n : String) (C : Option DzlShortcutChord)
    (hkey : g_hash_table_contains theme.chains n = true) :
    (dzl_shortcut_theme_set_chord_for_action parse theme (some n) C).chains = theme.chains
    ∧ (dzl_shortcut_theme_set_chord_for_command theme (some n) C).chains = theme.chains
    ∧ g_hash_table_lookup
        (dzl_shortcut_theme_set_chord_for_action parse theme (some n) C).chains (some n)
      = g_hash_table_lookup theme.chains (some n)
    ∧ g_hash_table_lookup
        (dzl_shortcut_theme_set_chord_for_command theme (some n) C).chains (some n)
      = g_hash_table_lookup theme.chains (some n) := by
  have h1 : (dzl_shortcut_theme_set_chord_for_action parse theme (some n) C).chains
      = theme.chains := by
    simp [dzl_shortcut_theme_set_chord_for_action, g_intern_string, hkey]
  have h2 : (dzl_shortcut_theme_set_chord_for_command theme (some n) C).chains
      = theme.chains := by
    simp [dzl_shortcut_theme_set_chord_for_command, g_intern_string, hkey]
  exact ⟨h1, h2, by rw [h1], by rw [h2]⟩

/-- C8 at a concrete input: rebinding the name `save-all` of `theme_base`. -/
theorem C8_chain_reuse_witness :
    g_hash_table_contains theme_base.chains "save-all" = true
    ∧ (dzl_shortcut_theme_set_chord_for_action parse_targetless theme_base
        (some "save-all") (some [key_ctrl_q])).chains = theme_base.chains
    ∧ (dzl_shortcut_theme_set_chord_for_command theme_base
        (some "save-all") (some [key_ctrl_q])).chains = theme_base.chains :=
  ⟨by decide,
   (C8_chain_reuse parse_targetless theme_base "save-all" (some [key_ctrl_q]) (by decide)).1,
   (C8_chain_reuse parse_targetless theme_base "save-all" (some [key_ctrl_q]) (by decide)).2.1⟩

/-- C9: set/get round trip. After `set_chord_for_action (theme, a, C)` with non-null
name and chord, `get_chord_for_action (theme, a)` is C; after
`set_chord_for_action (theme, a, NULL)` it is `NULL`, no entry of the actions table
having `a` as data any more. The same holds for `set_chord_for_command` and
`get_chord_for_command` over the commands table. -/
theorem C9_set_get_round_trip (parse : DetailedNameParser) (theme : DzlShortcutTheme)
    (a : String) (C : DzlShortcutChord) :
    dzl_shortcut_theme_get_chord_for_action
        (dzl_shortcut_theme_set_chord_for_action parse theme (some a) (some C)) (some a)
      = some C
    ∧ dzl_shortcut_theme_get_chord_for_action
        (dzl_shortcut_theme_set_chord_for_action parse theme (some a) none) (some a)
      = none
    ∧ (∀ e ∈ (dzl_shortcut_theme_set_chord_for_action parse theme (some a) none).actions_table,
        e.data ≠ a)
    ∧ dzl_shortcut_theme_get_chord_for_command
        (dzl_shortcut_theme_set_chord_for_command theme (some a) (some C)) (some a)
      = some C
    ∧ dzl_shortcut_theme_get_chord_for_command
        (dzl_shortcut_theme_set_chord_for_command theme (some a) none) (some a)
      = none
    ∧ (∀ e ∈ (dzl_shortcut_theme_set_chord_for_command theme (some a) none).commands_table,
        e.data ≠ a) := by
  refine ⟨?_, ?_, ?_, ?_, ?_, ?_⟩
  · unfold dzl_shortcut_theme_get_chord_for_action g_intern_string
    rw [set_chord_for_action_table]
    exact table_lookup_data_add _ C a
  · exact table_lookup_data_remove_data theme.actions_table a
  · intro e he
    have h : e ∈ dzl_shortcut_chord_table_remove_data theme.actions_table a := he
    unfold dzl_shortcut_chord_table_remove_data at h
    simpa using (List.mem_filter.mp h).2
  · unfold dzl_shortcut_theme_get_chord_for_command g_intern_string
    rw [set_chord_for_command_table]
    exact table_lookup_data_add _ C a
  · exact table_lookup_data_remove_data theme.commands_table a
  · intro e he
    have h : e ∈ dzl_shortcut_chord_table_remove_data theme.commands_table a := he
    unfold dzl_shortcut_chord_table_remove_data at h
    simpa using (List.mem_filter.mp h).2

/-- C10, as stated, fails: with the action `app.save` bound to Control+s, a call of
`dzl_shortcut_theme_set_accel_for_action` with an accelerator the chord parser
rejects removes the binding: `get_chord_for_action` is `NULL` afterwards and the
chord matches nothing. -/
theorem C10_malformed_accel_clears :
    parse_two_accels "<Contrl>s" = none
    ∧ dzl_shortcut_theme_get_chord_for_action
        (dzl_shortcut_theme_set_accel_for_action parse_targetless parse_two_accels
          (dzl_shortcut_theme_new (some "default")) (some "app.save") (some "<Control>s"))
        (some "app.save")
      = some [key_ctrl_s]
    ∧ dzl_shortcut_theme_get_chord_for_action
        (dzl_shortcut_theme_set_accel_for_action parse_targetless parse_two_accels
          (dzl_shortcut_theme_set_accel_for_action parse_targetless parse_two_accels
            (dzl_shortcut_theme_new (some "default")) (some "app.save") (some "<Control>s"))
          (some "app.save") (some "<Contrl>s"))
        (some "app.save")
      = none
    ∧ _dzl_shortcut_theme_match 1 heap_with_base
        (dzl_shortcut_theme_set_accel_for_action parse_targetless parse_two_accels
          (dzl_shortcut_theme_set_accel_for_action parse_targetless parse_two_accels
            (dzl_shortcut_theme_new (some "default")) (some "app.save") (some "<Control>s"))
          (some "app.save") (some "<Contrl>s"))
        [key_ctrl_s]
      = some (DzlShortcutMatch.NONE, []) := by
  decide

/-- C10, amended: an accelerator that the chord parser rejects acts as a `NULL`
accelerator. `dzl_shortcut_theme_set_accel_for_action (theme, a, s)` removes from the
actions table exactly the entries whose data is `a` and leaves the commands table
unchanged, so `get_chord_for_action (theme, a)` is `NULL` afterwards; likewise
`dzl_shortcut_theme_set_accel_for_command` over the commands table. -/
theorem C10_malformed_accel_acts_as_null (parse : DetailedNameParser)
    (chord_new_from_string : ChordParser) (theme : DzlShortcutTheme) (a s : String)
    (hbad : chord_new_from_string s = none) :
    ((dzl_shortcut_theme_set_accel_for_action parse chord_new_from_string theme
          (some a) (some s)).actions_table
        = dzl_shortcut_chord_table_remove_data theme.actions_table a
      ∧ (dzl_shortcut_theme_set_accel_for_action parse chord_new_from_string theme
          (some a) (some s)).commands_table = theme.commands_table
      ∧ dzl_shortcut_theme_get_chord_for_action
          (dzl_shortcut_theme_set_accel_for_action parse chord_new_from_string theme
            (some a) (some s)) (some a) = none)
    ∧ ((dzl_shortcut_theme_set_accel_for_command chord_new_from_string theme
          (some a) (some s)).commands_table
        = dzl_shortcut_chord_table_remove_data theme.commands_table a
      ∧ (dzl_shortcut_theme_set_accel_for_command chord_new_from_string theme
          (some a) (some s)).actions_table = theme.actions_table
      ∧ dzl_shortcut_theme_get_chord_for_command
          (dzl_shortcut_theme_set_accel_for_command chord_new_from_string theme
            (some a) (some s)) (some a) = none) := by
  have h1 : dzl_shortcut_theme_set_accel_for_action parse chord_new_from_string theme
      (some a) (some s) = dzl_shortcut_theme_set_chord_for_action parse theme (some a) none := by
    simp [dzl_shortcut_theme_set_accel_for_action, hbad]
  have h2 : dzl_shortcut_theme_set_accel_for_command chord_new_from_string theme
      (some a) (some s) = dzl_shortcut_theme_set_chord_for_command theme (some a) none := by
    simp [dzl_shortcut_theme_set_accel_for_command, hbad]
  rw [h1, h2]
  exact ⟨⟨rfl, rfl, table_lookup_data_remove_data theme.actions_table a⟩,
    ⟨rfl, rfl, table_lookup_data_remove_data theme.commands_table a⟩⟩

/-- C10, amended, at a concrete input: a misspelt accelerator for the command
`save-all` of `theme_base`. -/
theorem C10_malformed_accel_acts_as_null_witness :
    parse_two_accels "<Contrl>s" = none
    ∧ dzl_shortcut_theme_get_chord_for_command
        (dzl_shortcut_theme_set_accel_for_command parse_two_accels theme_base
          (some "save-all") (some "<Contrl>s")) (some "save-all") = none :=
  ⟨by decide,
   (C10_malformed_accel_acts_as_null parse_targetless parse_two_accels theme_base
    "save-all" "<Contrl>s" (by decide)).2.2.2⟩

/-- C11: find-or-create is memoized. In a theme whose contexts are well named,
`dzl_shortcut_theme_find_context_by_name (theme, name)` returns a non-null context
named `name`; a second call with an equal name returns the same context and leaves
the theme, so the contexts table, as it is; and the first call changes no lookup
under another key: it adds at most the one entry for `name`. -/
theorem C11_find_context_memoized (theme : DzlShortcutTheme) (name : String)
    (id1 id2 : Nat) (hwn : contexts_well_named theme.contexts = true) :
    ∃ ctx : DzlShortcutContext,
      (dzl_shortcut_theme_find_context_by_name theme (some name) id1).1 = some ctx
      ∧ ctx.name = some name
      ∧ dzl_shortcut_theme_find_context_by_name
          (dzl_shortcut_theme_find_context_by_name theme (some name) id1).2 (some name) id2
        = (some ctx, (dzl_shortcut_theme_find_context_by_name theme (some name) id1).2)
      ∧ (∀ key : GStrPtr, key ≠ GStrPtr.interned name →
          g_hash_table_lookup_context
              (dzl_shortcut_theme_find_context_by_name theme (some name) id1).2.contexts key
            = g_hash_table_lookup_context theme.contexts key)
      ∧ ((dzl_shortcut_theme_find_context_by_name theme (some name) id1).2.contexts
            = theme.contexts
          ∨ (dzl_shortcut_theme_find_context_by_name theme (some name) id1).2.contexts
            = theme.contexts ++ [(GStrPtr.interned name, ctx)]) := by
  cases hl : g_hash_table_lookup_context theme.contexts (GStrPtr.interned name) with
  | some ret =>
    have h1 : dzl_shortcut_theme_find_context_by_name theme (some name) id1
        = (some ret, theme) := by
      simp [dzl_shortcut_theme_find_context_by_name, g_intern_string, hl]
    have h2 : dzl_shortcut_theme_find_context_by_name theme (some name) id2
        = (some ret, theme) := by
      simp [dzl_shortcut_theme_find_context_by_name, g_intern_string, hl]
    refine ⟨ret, ?_, contexts_named_of_lookup _ name ret hwn hl, ?_, ?_, ?_⟩
    · rw [h1]
    · rw [h1]; exact h2
    · intro key _; rw [h1]
    · left; rw [h1]
  | none =>
    have h1 : dzl_shortcut_theme_find_context_by_name theme (some name) id1
        = (some (dzl_shortcut_context_new id1 name),
           { theme with contexts := theme.contexts
              ++ [(GStrPtr.interned name, dzl_shortcut_context_new id1 name)] }) := by
      simp [dzl_shortcut_theme_find_context_by_name, g_intern_string, hl,
        contexts_insert_absent _ _ _ hl]
    refine ⟨dzl_shortcut_context_new id1 name, ?_, rfl, ?_, ?_, ?_⟩
    · rw [h1]
    · rw [h1]
      simp [dzl_shortcut_theme_find_context_by_name, g_intern_string,
        contexts_lookup_appended _ _ _ hl]
    · intro key hkey
      rw [h1]
      exact contexts_lookup_appended_other _ _ key _ hkey
    · right; rw [h1]

/-- C11 at a concrete input: the first lookup of `editor` in a new theme. -/
theorem C11_find_context_memoized_witness :
    contexts_well_named (dzl_shortcut_theme_new (some "default")).contexts = true
    ∧ ∃ ctx : DzlShortcutContext,
        (dzl_shortcut_theme_find_context_by_name
          (dzl_shortcut_theme_new (some "default")) (some "editor") 1).1 = some ctx
        ∧ ctx.name = some "editor" :=
  ⟨rfl,
   (C11_find_context_memoized (dzl_shortcut_theme_new (some "default")) "editor" 1 2 rfl).elim
    (fun ctx h => ⟨ctx, h.1, h.2.1⟩)⟩

/-- C12: the claim fails on the code. `dzl_shortcut_theme_add_context` stores the
context under `g_strdup (name)`, a fresh pointer, in a table that compares keys as
pointers. The lookup by the interned name does not find it:
`dzl_shortcut_theme_find_context_by_name` creates and returns a new context, and a
second context of the same name adds a second entry. -/
theorem C12_added_context_is_not_found :
    (dzl_shortcut_theme_find_context_by_name
        (dzl_shortcut_theme_add_context (dzl_shortcut_theme_new (some "default"))
          context_editor 100)
        (some "editor") 3).1 = some ⟨3, some "editor"⟩
    ∧ (dzl_shortcut_theme_find_context_by_name
        (dzl_shortcut_theme_add_context (dzl_shortcut_theme_new (some "default"))
          context_editor 100)
        (some "editor") 3).1 ≠ some context_editor
    ∧ (dzl_shortcut_theme_add_context
        (dzl_shortcut_theme_add_context (dzl_shortcut_theme_new (some "default"))
          context_editor 100)
        context_editor_two 101).contexts
      = [(GStrPtr.dup 100 "editor", context_editor),
         (GStrPtr.dup 101 "editor", context_editor_two)] := by
  decide

/-- C13: the claim fails on the code. A chain built by `append_command`,
`append_command` and `append_callback` is the head with two appended elements; the
dispatch of the callback would report handled, but the execution goes from the head
to the first appended element and stops there, so the callback is not dispatched and
the value is `FALSE`. With the callback appended first the value is `TRUE`: the value
depends on the order of the appends. -/
theorem C13_appended_callback_is_not_counted :
    dzl_shortcut_closure_chain_append_callback
        (dzl_shortcut_closure_chain_append_command
          (dzl_shortcut_closure_chain_append_command [] (some "save-all"))
          (some "close-all"))
        11 5 none
      = chain_of_appends [DzlShortcutClosure.command "save-all",
          DzlShortcutClosure.command "close-all",
          DzlShortcutClosure.callback 11 5 none]
    ∧ dispatch_handled world_plain widget_plain (DzlShortcutClosure.callback 11 5 none) = true
    ∧ (dzl_shortcut_closure_chain_execute world_plain
        (chain_of_appends [DzlShortcutClosure.command "save-all",
          DzlShortcutClosure.command "close-all",
          DzlShortcutClosure.callback 11 5 none]) widget_plain).map
        (fun r => (r.handled, r.dispatched.map Prod.fst))
      = some (false, [DzlShortcutClosure.command "save-all",
          DzlShortcutClosure.command "close-all"])
    ∧ (dzl_shortcut_closure_chain_execute world_plain
        (chain_of_appends [DzlShortcutClosure.callback 11 5 none,
          DzlShortcutClosure.command "save-all",
          DzlShortcutClosure.command "close-all"]) widget_plain).map
        (fun r => r.handled)
      = some true := by
  decide

/-- C14: the claim fails on the code. A chain built by `append_callback`,
`append_command` and `append_callback` is the head with two appended elements; the
execution dispatches the head and the first appended element and stops there, so the
callback appended last is never invoked. -/
theorem C14_third_node_is_not_dispatched :
    dzl_shortcut_closure_chain_append_callback
        (dzl_shortcut_closure_chain_append_command
          (dzl_shortcut_closure_chain_append_callback [] 11 5 none) (some "save-all"))
        12 6 none
      = chain_of_appends [DzlShortcutClosure.callback 11 5 none,
          DzlShortcutClosure.command "save-all",
          DzlShortcutClosure.callback 12 6 none]
    ∧ (dzl_shortcut_closure_chain_execute world_plain
        (chain_of_appends [DzlShortcutClosure.callback 11 5 none,
          DzlShortcutClosure.command "save-all",
          DzlShortcutClosure.callback 12 6 none]) widget_plain).map
        (fun r => r.dispatched)
      = some [(DzlShortcutClosure.callback 11 5 none, [DispatchEffect.callback_invoked 11 7 5]),
          (DzlShortcutClosure.command "save-all", [])] := by
  decide

/-- C15: reentrancy guard. On a node whose executing flag is set,
`dzl_shortcut_closure_chain_execute` returns `FALSE` at once: no node is dispatched,
this one or a later one, and the chain with all its flags is as before. -/
theorem C15_reentrancy_guard (world : DispatchWorld) (widget : GtkWidget)
    (c : DzlShortcutClosure) (next : DzlShortcutClosureChain) :
    dzl_shortcut_closure_chain_execute world (⟨c, true⟩ :: next) widget
      = some ⟨false, [], ⟨c, true⟩ :: next⟩ := by
  simp [dzl_shortcut_closure_chain_execute]

/-- C16: free is refused atomically while executing. In a chain with the flags a
chain can have (a set flag on a node means a set flag on the head), when a node, the
head or a later one, has its flag set, `dzl_shortcut_closure_chain_free` only warns:
no node is freed, no parameter released, no destructor invoked. -/
theorem C16_free_refused_while_executing (chain : DzlShortcutClosureChain)
    (hinv : executing_from_head chain = true)
    (hany : ∃ n ∈ chain, n.executing = true) :
    dzl_shortcut_closure_chain_free chain = [FreeEffect.warning_leaking] := by
  cases chain with
  | nil =>
    obtain ⟨n, hn, _⟩ := hany
    simp at hn
  | cons head rest =>
    exact free_head_executing head rest (executing_from_head_head head rest hinv hany)

/-- C16 at a concrete input: the chain during the dispatch of its second node, the
command; the callback node with its destructor is the head. -/
theorem C16_free_refused_while_executing_witness :
    executing_from_head
        [⟨DzlShortcutClosure.callback 11 5 (some 9), true⟩,
         ⟨DzlShortcutClosure.command "save-all", true⟩,
         ⟨DzlShortcutClosure.callback 12 6 (some 9), false⟩] = true
    ∧ dzl_shortcut_closure_chain_free
        [⟨DzlShortcutClosure.callback 11 5 (some 9), true⟩,
         ⟨DzlShortcutClosure.command "save-all", true⟩,
         ⟨DzlShortcutClosure.callback 12 6 (some 9), false⟩]
      = [FreeEffect.warning_leaking] :=
  ⟨by decide,
    C16_free_refused_while_executing
      [⟨DzlShortcutClosure.callback 11 5 (some 9), true⟩,
       ⟨DzlShortcutClosure.command "save-all", true⟩,
       ⟨DzlShortcutClosure.callback 12 6 (some 9), false⟩]
      (by decide) ⟨⟨DzlShortcutClosure.command "save-all", true⟩, by simp, rfl⟩⟩

/-- C18: detailed-name parsing agrees with manual construction. When the GLib parser
turns the detailed name into the full name `g.n` and the target `p`, and `g` has no
dot, `dzl_shortcut_closure_chain_append_action_string (NULL, detailed)` is the chain
`dzl_shortcut_closure_chain_append_action (NULL, g, n, p)` builds, one action node
with group `g`, name `n` and parameter `p`; the full name is split at its first
dot. -/
theorem C18_action_string_agrees (parse : DetailedNameParser) (detailed g n : String)
    (p : Option GVariant)
    (hparse : parse detailed = some (g ++ "." ++ n, p))
    (hdot : '.' ∉ g.toList) :
    dzl_shortcut_closure_chain_append_action_string parse [] (some detailed)
      = dzl_shortcut_closure_chain_append_action [] (some g) (some n) p
    ∧ dzl_shortcut_closure_chain_append_action [] (some g) (some n) p
      = [⟨DzlShortcutClosure.action (some g) n p, false⟩]
    ∧ split_at_dot (g ++ "." ++ n).toList = some (g.toList, n.toList) := by
  have hlist : (g ++ "." ++ n).toList = g.toList ++ '.' :: n.toList := by
    simp [String.toList]
  have hsplit : split_at_dot (g ++ "." ++ n).toList = some (g.toList, n.toList) := by
    rw [hlist]
    exact split_at_dot_first g.toList n.toList hdot
  refine ⟨?_, rfl, hsplit⟩
  unfold dzl_shortcut_closure_chain_append_action_string
    dzl_shortcut_closure_chain_append_action
  simp only [hparse, hsplit]
  rfl

/-- C18 at a concrete input: the detailed name `app.quit` without target. -/
theorem C18_action_string_agrees_witness :
    dzl_shortcut_closure_chain_append_action_string parse_targetless [] (some "app.quit")
      = dzl_shortcut_closure_chain_append_action [] (some "app") (some "quit") none :=
  (C18_action_string_agrees parse_targetless "app.quit" "app" "quit" none
    (by decide) (by decide)).1

/-- C19: the claim fails on the code. For a detailed name without dot,
`dzl_shortcut_closure_chain_append_action_string` stores an action node with a
`NULL` group, and executing the chain, built directly or bound with
`set_chord_for_action` and matched, runs into the failing
`g_assert (prefix != NULL)` of `_dzl_gtk_widget_activate_action`: the execution
aborts instead of returning `FALSE`. -/
theorem C19_dotless_action_name_aborts :
    dzl_shortcut_closure_chain_append_action_string parse_targetless [] (some "save")
      = [⟨DzlShortcutClosure.action none "save" none, false⟩]
    ∧ dzl_shortcut_closure_chain_execute world_plain
        (dzl_shortcut_closure_chain_append_action_string parse_targetless [] (some "save"))
        widget_plain = none
    ∧ (_dzl_shortcut_theme_match 1 heap_with_base
        (dzl_shortcut_theme_set_chord_for_action parse_targetless
          (dzl_shortcut_theme_new (some "default")) (some "save") (some [key_ctrl_s]))
        [key_ctrl_s]).bind
        (fun r => dzl_shortcut_closure_chain_execute world_plain r.2 widget_plain)
      = none := by
  decide

/-- C20: partial signal arguments are kept. When the arguments before the first one
whose collection reports an error (all of them when none does) collect to the values
`vs`, `dzl_shortcut_closure_chain_append_signal` appends one signal node whose
parameter array is exactly `vs`, in order. -/
theorem C20_partial_signal_arguments (g_quark_try_string : String → Nat)
    (collect : ValueCollector) (chain : DzlShortcutClosureChain) (signal_name : String)
    (pre post : List SignalArg) (vs : List GValue)
    (hpre : pre.map collect = vs.map some)
    (hpost : post.head?.bind collect = none) :
    collect_signal_params collect (pre ++ post).length (pre ++ post) = vs
    ∧ vs.length = pre.length
    ∧ ∃ (detail : Nat) (name : String),
        dzl_shortcut_closure_chain_append_signal g_quark_try_string collect chain
            (some signal_name) (pre ++ post).length (pre ++ post)
          = chain ++ [⟨DzlShortcutClosure.signal detail name vs, false⟩] := by
  have hparams := collect_signal_params_front collect pre vs post hpre hpost
  have hlen : vs.length = pre.length := by
    have := congrArg List.length hpre
    simpa using this.symm
  refine ⟨hparams, hlen, ?_⟩
  unfold dzl_shortcut_closure_chain_append_signal
  simp only [hparams, chain_append_singleton]
  exact ⟨_, _, rfl⟩

/-- C20 at a concrete input: the third of four arguments has a type the collector
rejects, and the node keeps the first two values. -/
theorem C20_partial_signal_arguments_witness :
    collect_signal_params collect_small_types 4 [⟨1, 10⟩, ⟨2, 20⟩, ⟨3, 30⟩, ⟨1, 40⟩]
      = [⟨1, 10⟩, ⟨2, 20⟩] :=
  (C20_partial_signal_arguments (fun _ => 0) collect_small_types [] "changed::detail"
    [⟨1, 10⟩, ⟨2, 20⟩] [⟨3, 30⟩, ⟨1, 40⟩] [⟨1, 10⟩, ⟨2, 20⟩] (by decide) (by decide)).1

/-- C21: signal mismatch is swallowed. For a signal node whose signal is found (on the
controller of the widget or in the widget hierarchy), `signal_activate` returns
`TRUE` in every case: when the stored argument count equals the declared one and
every stored argument holds the declared type, the signal is emitted once, on the
found instance, with the stored detail and arguments; otherwise nothing is emitted
and only the warning is logged. The return value of the signal plays no role. -/
theorem C21_signal_mismatch_is_swallowed (world : DispatchWorld) (widget : GtkWidget)
    (detail : Nat) (name : String) (params : List GValue) (instance_id : Nat)
    (query : GSignalQuery)
    (hfound : find_instance_and_signal widget name = some (instance_id, query)) :
    signal_activate world detail name params widget
      = (true,
          if query.param_types.length = params.length
              ∧ ∀ vt ∈ List.zip params query.param_types,
                  world.g_type_is_a vt.1.gtype vt.2 = true
          then [DispatchEffect.signal_emitted instance_id query.signal_id detail params]
          else [DispatchEffect.warning "The parameters are not correct for signal"])
    ∧ dispatch_closure world widget (DzlShortcutClosure.signal detail name params)
      = some (signal_activate world detail name params widget) := by
  refine ⟨?_, rfl⟩
  unfold signal_activate signal_params_match
  rw [hfound]
  by_cases hlen : query.param_types.length = params.length
  · by_cases hall : ∀ vt ∈ List.zip params query.param_types,
        world.g_type_is_a vt.1.gtype vt.2 = true
    · have hb : (List.zip params query.param_types).all
          (fun vt => world.g_type_is_a vt.1.gtype vt.2) = true :=
        List.all_eq_true.mpr hall
      simp only [hlen, hb, decide_True, Bool.and_self, if_true, true_and]
      rw [if_pos hall]
    · have hb : (List.zip params query.param_types).all
          (fun vt => world.g_type_is_a vt.1.gtype vt.2) = false := by
        rw [Bool.eq_false_iff]
        intro h
        exact hall (List.all_eq_true.mp h)
      simp only [hlen, hb, decide_True, Bool.and_false, Bool.false_eq_true, if_false, true_and]
      rw [if_neg hall]
  · simp only [hlen, decide_False, Bool.false_and, Bool.false_eq_true, if_false, false_and]

/-- C21 at a concrete input: the signal `toggle` of the controller of the window,
declared with one parameter, activated with no stored argument. -/
theorem C21_signal_mismatch_is_swallowed_witness :
    signal_activate world_app 0 "toggle" [] widget_window
      = (true, [DispatchEffect.warning "The parameters are not correct for signal"]) :=
  (C21_signal_mismatch_is_swallowed world_app widget_window 0 "toggle" [] 21 ⟨5, [1], 0⟩
    (by decide)).1

/-- C22: the claim fails on the code. When neither the controller of the widget nor a
widget on the ancestor chain defines the signal, `signal_activate` logs the warning
and returns `TRUE`, so a chain made of that single signal node makes
`dzl_shortcut_closure_chain_execute` return `TRUE`, not `FALSE`. -/
theorem C22_signal_miss_reports_handled :
    find_instance_and_signal widget_button "frobnicate" = none
    ∧ signal_activate world_app 0 "frobnicate" [] widget_button
      = (true, [DispatchEffect.warning "Failed to locate signal"])
    ∧ (dzl_shortcut_closure_chain_execute world_app
        (chain_of_appends [DzlShortcutClosure.signal 0 "frobnicate" []]) widget_button).map
        (fun r => r.handled)
      = some true := by
  decide

/-- C23: action-group resolution. The group found by the loop of
`_dzl_gtk_widget_activate_action` is the first one registered under the prefix on
the walk from the widget (to the relative-to widget of a popover that has one, to
the parent otherwise); only when the walk finds none, the toplevel is taken for the
prefix `win` (when it is an action group) and the default application for the prefix
`app`. The function returns `TRUE`, with one activation of the action with the given
parameter, exactly when a group is resolved and has the action; when the resolved
group lacks the action it returns `FALSE` without activation, whatever farther
groups or fallback scopes hold. -/
theorem C23_action_group_resolution (world : DispatchWorld) (widget : GtkWidget)
    (p action_name : String) (parameter : Option GVariant) :
    activate_action_find_group p widget
      = (activate_action_walk widget).findSome? (fun w => gtk_widget_get_action_group w p)
    ∧ activate_action_resolve_group world widget p
      = (match (activate_action_walk widget).findSome?
            (fun w => gtk_widget_get_action_group w p) with
        | some group => some group
        | none =>
          if p = "win" then (gtk_widget_get_toplevel widget).info.as_action_group
          else if p = "app" then world.default_application
          else none)
    ∧ _dzl_gtk_widget_activate_action world widget (some p) action_name parameter
      = some (match activate_action_resolve_group world widget p with
        | some group =>
          if action_name ∈ group.actions
          then (true, [DispatchEffect.action_activated group.id action_name parameter])
          else (false, [DispatchEffect.warning "Failed to locate action"])
        | none => (false, [DispatchEffect.warning "Failed to locate action"]))
    ∧ ((_dzl_gtk_widget_activate_action world widget (some p) action_name parameter).map
          (fun r => r.1) = some true
        ↔ ∃ group, activate_action_resolve_group world widget p = some group
            ∧ action_name ∈ group.actions)
    ∧ (∀ group, activate_action_find_group p widget = some group →
        action_name ∉ group.actions →
        _dzl_gtk_widget_activate_action world widget (some p) action_name parameter
          = some (false, [DispatchEffect.warning "Failed to locate action"])) := by
  have h1 := find_group_eq_first_on_walk p widget
  have h3 : _dzl_gtk_widget_activate_action world widget (some p) action_name parameter
      = some (match activate_action_resolve_group world widget p with
        | some group =>
          if action_name ∈ group.actions
          then (true, [DispatchEffect.action_activated group.id action_name parameter])
          else (false, [DispatchEffect.warning "Failed to locate action"])
        | none => (false, [DispatchEffect.warning "Failed to locate action"])) := by
    simp only [_dzl_gtk_widget_activate_action]
    cases hres : activate_action_resolve_group world widget p with
    | none => rfl
    | some group =>
      by_cases h : action_name ∈ group.actions
      · simp [h]
      · simp [h]
  refine ⟨h1, ?_, h3, ?_, ?_⟩
  · unfold activate_action_resolve_group
    rw [← h1]
    cases activate_action_find_group p widget with
    | some group => rfl
    | none =>
      by_cases hw : p = "win"
      · subst hw
        cases (gtk_widget_get_toplevel widget).info.as_action_group <;> simp
      · simp [hw]
  · rw [h3]
    cases activate_action_resolve_group world widget p with
    | none => simp
    | some group =>
      by_cases h : action_name ∈ group.actions
      · simp [h]
      · simp [h]
  · intro group hgroup hlacks
    rw [h3]
    simp [activate_action_resolve_group, hgroup, hlacks]

/-- C23 at a concrete input: from the popover the walk goes to the editor, whose group
under `win` lacks `close`; the window, which has it, is not tried. -/
theorem C23_action_group_resolution_witness :
    _dzl_gtk_widget_activate_action world_app widget_popover (some "win") "close" none
      = some (false, [DispatchEffect.warning "Failed to locate action"]) :=
  (C23_action_group_resolution world_app widget_popover "win" "close" none).2.2.2.2
    group_editor (by decide) (by decide)

/-- C24: command dispatch stops at the first acceptor. `command_activate` asks the
controllers on the ancestor chain of the widget, the widget itself first, each in
turn up to and including the first one that accepts the command, and none after it;
it returns `TRUE` exactly when some widget on the chain has a controller that
accepts. -/
theorem C24_command_stops_at_first_acceptor (command : String) (widget : GtkWidget) :
    command_activate command widget
      = (((widget_ancestors widget).filterMap (fun info => info.controller)).any
            (fun c => dzl_shortcut_controller_execute_command c command),
         (controllers_asked command
            ((widget_ancestors widget).filterMap (fun info => info.controller))).map
            (fun c => DispatchEffect.command_asked c.id command))
    ∧ ((command_activate command widget).1 = true
        ↔ ∃ info ∈ widget_ancestors widget, ∃ c, info.controller = some c
            ∧ dzl_shortcut_controller_execute_command c command = true)
    ∧ controllers_asked command
          ((widget_ancestors widget).filterMap (fun info => info.controller))
        <+: (widget_ancestors widget).filterMap (fun info => info.controller)
    ∧ (∀ c ∈ (controllers_asked command
          ((widget_ancestors widget).filterMap (fun info => info.controller))).dropLast,
        dzl_shortcut_controller_execute_command c command = false) := by
  refine ⟨command_activate_eq command widget, ?_, controllers_asked_initial _ _,
    controllers_asked_before_last _ _⟩
  rw [command_activate_eq]
  simp only [List.any_eq_true, List.mem_filterMap]
  constructor
  · rintro ⟨c, ⟨info, hinfo, hc⟩, ha⟩
    exact ⟨info, hinfo, c, hc, ha⟩
  · rintro ⟨info, hinfo, c, hc, ha⟩
    exact ⟨c, ⟨info, hinfo, hc⟩, ha⟩

/-- C24 at a concrete input: from the editor, its own controller is asked first and
declines, the controller of the window is asked next and accepts. -/
theorem C24_command_stops_at_first_acceptor_witness :
    command_activate "save-all" widget_editor
      = (true, [DispatchEffect.command_asked 22 "save-all",
          DispatchEffect.command_asked 21 "save-all"]) :=
  (C24_command_stops_at_first_acceptor "save-all" widget_editor).1.trans (by decide)

/-- C25: match precedence is actions, then commands, then parent. A chord held exactly
by the actions table gives `EQUAL` with the chain of the action, whatever the
commands table holds; a chord held exactly by the commands table only gives `EQUAL`
with the chain of the command; in both cases the parent is not consulted (the result
needs no fuel for a recursion and does not depend on the registry); and when neither
own table holds the chord exactly, be it partially, an `EQUAL` result of the parent is
the result. -/
theorem C25_match_precedence (heap : ManagerHeap) (fuel : Nat) (theme : DzlShortcutTheme)
    (chord : DzlShortcutChord) :
    ((dzl_shortcut_chord_table_lookup theme.actions_table chord).1 = DzlShortcutMatch.EQUAL →
        _dzl_shortcut_theme_match (fuel + 1) heap theme chord
          = some (DzlShortcutMatch.EQUAL,
              g_hash_table_lookup theme.chains
                (dzl_shortcut_chord_table_lookup theme.actions_table chord).2))
    ∧ ((dzl_shortcut_chord_table_lookup theme.actions_table chord).1 ≠ DzlShortcutMatch.EQUAL →
        (dzl_shortcut_chord_table_lookup theme.commands_table chord).1
          = DzlShortcutMatch.EQUAL →
        _dzl_shortcut_theme_match (fuel + 1) heap theme chord
          = some (DzlShortcutMatch.EQUAL,
              g_hash_table_lookup theme.chains
                (dzl_shortcut_chord_table_lookup theme.commands_table chord).2))
    ∧ (own_probe_exact theme chord = true →
        ∀ heap2 : ManagerHeap,
          _dzl_shortcut_theme_match 1 heap2 theme chord
            = _dzl_shortcut_theme_match (fuel + 1) heap theme chord)
    ∧ (∀ (parent : DzlShortcutTheme) (k : DzlShortcutClosureChain),
        own_probe_exact theme chord = false →
        dzl_shortcut_theme_get_parent heap theme = some parent →
        _dzl_shortcut_theme_match fuel heap parent chord = some (DzlShortcutMatch.EQUAL, k) →
        _dzl_shortcut_theme_match (fuel + 1) heap theme chord
          = some (DzlShortcutMatch.EQUAL, k)) := by
  refine ⟨match_succ_actions_exact heap fuel theme chord,
    match_succ_commands_exact heap fuel theme chord, ?_, ?_⟩
  · intro hown heap2
    by_cases h1 : (dzl_shortcut_chord_table_lookup theme.actions_table chord).1
        = DzlShortcutMatch.EQUAL
    · rw [match_succ_actions_exact heap fuel theme chord h1,
        match_succ_actions_exact heap2 0 theme chord h1]
    · have h2 : (dzl_shortcut_chord_table_lookup theme.commands_table chord).1
          = DzlShortcutMatch.EQUAL := by
        simpa [own_probe_exact, h1] using hown
      rw [match_succ_commands_exact heap fuel theme chord h1 h2,
        match_succ_commands_exact heap2 0 theme chord h1 h2]
  · intro parent k hown hp hk
    rw [match_succ_parent heap fuel theme parent chord hown hp, hk]
    simp

/-- C25 at a concrete input: Control+q is bound to an action and to a command of
`theme_both`, and the match outputs the chain of the action. -/
theorem C25_match_precedence_witness :
    _dzl_shortcut_theme_match 1 heap_with_base theme_both [key_ctrl_q]
      = some (DzlShortcutMatch.EQUAL,
          [⟨DzlShortcutClosure.action (some "app") "quit" none, false⟩]) :=
  ((C25_match_precedence heap_with_base 0 theme_both [key_ctrl_q]).1 (by decide)).trans
    (by decide)

/-- C26: non-exact results. When neither own table holds the chord exactly and the
parent, if one resolves, does not return `EQUAL`, `_dzl_shortcut_theme_match` returns
`PARTIAL` if the actions probe, the commands probe or the result of the parent is
`PARTIAL`, and `NONE` otherwise; the chain it outputs is `NULL` in both cases,
whatever the call on the parent wrote. -/
theorem C26_non_exact_results (heap : ManagerHeap) (n : Nat) (theme : DzlShortcutTheme)
    (chord : DzlShortcutChord) (hown : own_probe_exact theme chord = false) :
    (dzl_shortcut_theme_get_parent heap theme = none →
        _dzl_shortcut_theme_match (n + 1) heap theme chord
          = some (if (dzl_shortcut_chord_table_lookup theme.actions_table chord).1
                  = DzlShortcutMatch.PARTIAL
                ∨ (dzl_shortcut_chord_table_lookup theme.commands_table chord).1
                  = DzlShortcutMatch.PARTIAL
              then DzlShortcutMatch.PARTIAL else DzlShortcutMatch.NONE, []))
    ∧ (∀ (parent : DzlShortcutTheme) (match3 : DzlShortcutMatch)
        (written : DzlShortcutClosureChain),
        dzl_shortcut_theme_get_parent heap theme = some parent →
        _dzl_shortcut_theme_match n heap parent chord = some (match3, written) →
        match3 ≠ DzlShortcutMatch.EQUAL →
        _dzl_shortcut_theme_match (n + 1) heap theme chord
          = some (if (dzl_shortcut_chord_table_lookup theme.actions_table chord).1
                  = DzlShortcutMatch.PARTIAL
                ∨ (dzl_shortcut_chord_table_lookup theme.commands_table chord).1
                  = DzlShortcutMatch.PARTIAL
                ∨ match3 = DzlShortcutMatch.PARTIAL
              then DzlShortcutMatch.PARTIAL else DzlShortcutMatch.NONE, [])) := by
  have hne := own_probe_exact_false theme chord hown
  have ht1 := match_truthy_of_not_equal _ hne.1
  have ht2 := match_truthy_of_not_equal _ hne.2
  constructor
  · intro hp
    rw [match_succ_no_parent heap n theme chord hown hp]
    simp only [own_probe_truthy, ht1, ht2, Bool.or_eq_true, decide_eq_true_eq]
  · intro parent match3 written hp hm hne3
    rw [match_succ_parent heap n theme parent chord hown hp, hm]
    have ht3 := match_truthy_of_not_equal _ hne3
    simp only [hne3, if_false, own_probe_truthy, ht1, ht2, ht3, Bool.or_eq_true,
      decide_eq_true_eq, or_assoc]

/-- C26 at a concrete input: the first key of a two-key chord of `theme_base`, matched
in `theme_base`, which has no parent. -/
theorem C26_non_exact_results_witness :
    _dzl_shortcut_theme_match 1 heap_with_base theme_base [key_ctrl_k]
      = some (DzlShortcutMatch.PARTIAL, []) :=
  ((C26_non_exact_results heap_with_base 0 theme_base [key_ctrl_k] (by decide)).1
    (by decide)).trans (by decide)

/-- C27: table-to-chain invariant. In every theme state reachable from a new theme by
calls of `set_chord_for_action`, `set_chord_for_command`, `set_accel_for_action` and
`set_accel_for_command`, the data identifier of every entry of the actions table and
of the commands table is a key of the `chains` table. -/
theorem C27_table_to_chain_invariant (parse : DetailedNameParser)
    (chord_new_from_string : ChordParser) (theme : DzlShortcutTheme)
    (hreach : ThemeReachable parse chord_new_from_string theme) :
    tables_point_to_chains theme := by
  induction hreach with
  | fresh name =>
    constructor <;> intro e he <;> simp [dzl_shortcut_theme_new, dzl_shortcut_chord_table_new] at he
  | chord_for_action t name chord _ ih =>
    exact set_chord_for_action_keeps_invariant parse t name chord ih
  | chord_for_command t name chord _ ih =>
    exact set_chord_for_command_keeps_invariant t name chord ih
  | accel_for_action t name accel _ ih =>
    exact set_chord_for_action_keeps_invariant parse t name _ ih
  | accel_for_command t name accel _ ih =>
    exact set_chord_for_command_keeps_invariant t name _ ih

/-- C27 at a concrete input: `theme_both`, reached by two setter calls. -/
theorem C27_table_to_chain_invariant_witness :
    tables_point_to_chains theme_both :=
  C27_table_to_chain_invariant parse_targetless parse_two_accels theme_both
    (ThemeReachable.chord_for_command _ _ _
      (ThemeReachable.chord_for_action _ _ _ (ThemeReachable.fresh (some "both"))))

/-- C29: match terminates on acyclic theme chains. When the walk from the theme through
the parents that resolve is finite (`fuel` themes at most), `_dzl_shortcut_theme_match`
returns, with the same result for every larger fuel; the themes it probes are those
of the walk, in order, up to and including the first whose own tables hold the chord
exactly, so no theme before the last probed one is exact, and when the walk does not
revisit a theme, no theme is probed twice. -/
theorem C29_match_terminates (heap : ManagerHeap) (fuel : Nat) (theme : DzlShortcutTheme)
    (chord : DzlShortcutChord) (l : List DzlShortcutTheme)
    (hwalk : dzl_shortcut_theme_ancestry fuel heap theme = some l) :
    (∃ r, ∀ k : Nat, _dzl_shortcut_theme_match (fuel + k) heap theme chord = some r)
    ∧ _dzl_shortcut_theme_match_probes fuel heap theme chord
      = some (walk_until_exact chord l)
    ∧ walk_until_exact chord l <+: l
    ∧ (∀ x ∈ (walk_until_exact chord l).dropLast, own_probe_exact x chord = false)
    ∧ (l.Nodup → (walk_until_exact chord l).Nodup) := by
  obtain ⟨⟨r, hr⟩, hprobes⟩ := match_on_finite_walk heap chord fuel theme l hwalk
  refine ⟨⟨r, match_fuel_add heap chord fuel theme r hr⟩, hprobes,
    walk_until_exact_initial chord l, walk_until_exact_before_last chord l, ?_⟩
  intro hnodup
  exact hnodup.sublist (walk_until_exact_initial chord l).sublist

/-- C29 at a concrete input: the walk from `theme_custom` meets `theme_base`, where
the two-key chord is exact; both are probed, once each. -/
theorem C29_match_terminates_witness :
    dzl_shortcut_theme_ancestry 2 heap_with_base theme_custom = some [theme_custom, theme_base]
    ∧ _dzl_shortcut_theme_match_probes 2 heap_with_base theme_custom [key_ctrl_k, key_ctrl_s]
      = some (walk_until_exact [key_ctrl_k, key_ctrl_s] [theme_custom, theme_base]) :=
  ⟨by decide,
   (C29_match_terminates heap_with_base 2 theme_custom [key_ctrl_k, key_ctrl_s]
    [theme_custom, theme_base] (by decide)).2.1⟩

/-- C28: executing flags are restored. When `dzl_shortcut_closure_chain_execute`
returns, the chain with every executing flag is as before the call, so a chain
without set flag has none afterwards; it does return when every dispatch returns.
At the dispatch of the node at position `i` of the execution, the flags of the first
`i + 1` nodes, that node and those entered before it, are set; one such state is
recorded per dispatched node. The dispatched code is taken not to write the flags. -/
theorem C28_executing_flags_restored (world : DispatchWorld) (widget : GtkWidget)
    (chain : DzlShortcutClosureChain) :
    (∀ r, dzl_shortcut_closure_chain_execute world chain widget = some r → r.chain = chain)
    ∧ ((∀ n ∈ chain, dispatch_closure world widget n.closure ≠ none) →
        ∃ r, dzl_shortcut_closure_chain_execute world chain widget = some r
          ∧ r.chain = chain)
    ∧ (∀ r, dzl_shortcut_closure_chain_execute world chain widget = some r →
        (∀ n ∈ chain, n.executing = false) → ∀ n ∈ r.chain, n.executing = false)
    ∧ (∀ states, execute_states_at_dispatch world widget [] chain = some states →
        ∀ (i : Nat) (state : DzlShortcutClosureChain), states[i]? = some state →
          (state.take (i + 1)).all (fun n => n.executing) = true
            ∧ state.length = chain.length)
    ∧ (execute_states_at_dispatch world widget [] chain).map List.length
      = (dzl_shortcut_closure_chain_execute world chain widget).map
          (fun r => r.dispatched.length) := by
  refine ⟨execute_chain_unchanged world widget chain, ?_, ?_, ?_,
    execute_states_count world widget chain []⟩
  · intro hret
    obtain ⟨r, hr⟩ := execute_returns_of_dispatches world widget chain hret
    exact ⟨r, hr, execute_chain_unchanged world widget chain r hr⟩
  · intro r hr hidle n hn
    rw [execute_chain_unchanged world widget chain r hr] at hn
    exact hidle n hn
  · intro states hstates i state hi
    have h := execute_states_flags world widget chain [] states (by simp) hstates i state hi
    simpa using h

/-- C28 at a concrete input: a chain of two callbacks around a command is executed and
comes back with all flags cleared. -/
theorem C28_executing_flags_restored_witness :
    ∃ r, dzl_shortcut_closure_chain_execute world_plain
        (chain_of_appends [DzlShortcutClosure.callback 11 5 none,
          DzlShortcutClosure.command "save-all",
          DzlShortcutClosure.callback 12 6 none]) widget_plain = some r
      ∧ r.chain = chain_of_appends [DzlShortcutClosure.callback 11 5 none,
          DzlShortcutClosure.command "save-all",
          DzlShortcutClosure.callback 12 6 none] :=
  (C28_executing_flags_restored world_plain widget_plain
    (chain_of_appends [DzlShortcutClosure.callback 11 5 none,
      DzlShortcutClosure.command "save-all",
      DzlShortcutClosure.callback 12 6 none])).2.1 (by decide)

/-- C30: sorted insertion keeps order. `_dzl_tree_insert_sorted` places the child after
the leading siblings for which `compare_func (sibling, child)` is not positive, that
is immediately before the first sibling for which it is positive, or after all
siblings when there is none; the existing siblings keep their relative order. For a
compare function that is a total preorder and children in non-decreasing order, the
children are in non-decreasing order afterwards, and every sibling after the child
compares greater than it, so the child follows every sibling that compares equal. -/
theorem C30_insert_sorted_keeps_order (compare_func : DzlTreeNode → DzlTreeNode → Int)
    (child : DzlTreeNode) (children : List DzlTreeNode) :
    _dzl_tree_insert_sorted compare_func child children
      = children.takeWhile (fun s => decide (compare_func s child ≤ 0))
        ++ child :: children.dropWhile (fun s => decide (compare_func s child ≤ 0))
    ∧ children.takeWhile (fun s => decide (compare_func s child ≤ 0))
        ++ children.dropWhile (fun s => decide (compare_func s child ≤ 0)) = children
    ∧ (∀ s ∈ children.takeWhile (fun s => decide (compare_func s child ≤ 0)),
        compare_func s child ≤ 0)
    ∧ (∀ s, (children.dropWhile (fun s => decide (compare_func s child ≤ 0))).head? = some s →
        compare_func s child > 0)
    ∧ ((∀ a b, compare_func a b ≤ 0 ∨ compare_func b a ≤ 0) →
        (∀ a b c, compare_func a b ≤ 0 → compare_func b c ≤ 0 → compare_func a c ≤ 0) →
        children.Pairwise (fun a b => compare_func a b ≤ 0) →
        (_dzl_tree_insert_sorted compare_func child children).Pairwise
            (fun a b => compare_func a b ≤ 0)
          ∧ (∀ s ∈ children.dropWhile (fun s => decide (compare_func s child ≤ 0)),
              compare_func s child > 0)) := by
  refine ⟨insert_sorted_eq compare_func child children, List.takeWhile_append_dropWhile _ _,
    takeWhile_all_le compare_func child children,
    dropWhile_head_greater compare_func child children, ?_⟩
  intro htotal htrans hsorted
  have h := insert_sorted_keeps_order compare_func child htotal htrans children hsorted
  exact ⟨h.1, h.2.2⟩

/-- C30 at a concrete input: with the lengths of the texts as order, `cc` is inserted
after `bb`, which compares equal, and before `dddd`. -/
theorem C30_insert_sorted_keeps_order_witness :
    _dzl_tree_insert_sorted compare_text_length ⟨4, "cc"⟩
        [⟨1, "a"⟩, ⟨2, "bb"⟩, ⟨3, "dddd"⟩]
      = [⟨1, "a"⟩, ⟨2, "bb"⟩, ⟨4, "cc"⟩, ⟨3, "dddd"⟩]
    ∧ (_dzl_tree_insert_sorted compare_text_length ⟨4, "cc"⟩
        [⟨1, "a"⟩, ⟨2, "bb"⟩, ⟨3, "dddd"⟩]).Pairwise
        (fun a b => compare_text_length a b ≤ 0) :=
  ⟨(C30_insert_sorted_keeps_order compare_text_length ⟨4, "cc"⟩
      [⟨1, "a"⟩, ⟨2, "bb"⟩, ⟨3, "dddd"⟩]).1.trans (by decide),
   ((C30_insert_sorted_keeps_order compare_text_length ⟨4, "cc"⟩
      [⟨1, "a"⟩, ⟨2, "bb"⟩, ⟨3, "dddd"⟩]).2.2.2.2
      (by intro a b; unfold compare_text_length; omega)
      (by intro a b c; unfold compare_text_length; omega)
      (by decide)).1⟩

end Dazzle
